import Mathlib

/-!
# Verification of the cursor-based pagination layer of `acc-mcp-server`

This development shallowly embeds the pagination core of `src/iot-utils.ts`
(cursor codec `encodeCursor`/`decodeCursor`, the paginated fetch
orchestrators `listProductsPaginated`/`listDevicesPaginated`, the
aggregating loops `listProducts`/`listDevices`, and the token cache
`getAccessToken`) and proves/refutes the specified properties.

Modelling conventions:
* JS strings are modelled as Lean `String` (a list of unicode scalar
  values); `btoa` fails exactly on code points above 255, as in the
  WHATWG definition.
* JSON numbers are modelled as integers (`Int`).  The cursor fields the
  code reads and writes (`pageNo`, `pageSize`, `totalItems`) are
  integer-valued; fractional/exponent number syntax is not modelled, so
  the embedded `JSON.parse` rejects documents that contain them.
* A JS value read from a parsed cursor field is `Option Json`
  (`none` = the field is absent, i.e. `undefined`).
* Network effects are modelled by an explicit upstream oracle: a function
  from the page parameters appearing in the request URL to the fetch
  outcome.  `FetchOutcome.thrown` covers both a rejected `fetch` and a
  `response.json()` that throws; otherwise the outcome records
  `response.ok`, the business `code` field and the `data` field of the
  parsed body.
-/

/-- A JSON value, as produced by `JSON.parse` (numbers restricted to
integers, see the header). -/
inductive Json where
  | null
  | bool (b : Bool)
  | num (n : Int)
  | str (s : String)
  | arr (elems : List Json)
  | obj (fields : List (String × Json))

/-! ## Base64 (`btoa` / `atob`)

`btoa` encodes a latin1 "binary string"; it throws on any code point
above 255.  `atob` implements the WHATWG forgiving-base64 decode:
strip ASCII whitespace, strip up to two trailing `=` when the length is
a multiple of four, reject a remainder of one char, reject characters
outside the alphabet, and discard trailing bits of a partial group. -/

/-- The standard (non-URL-safe) base64 alphabet. -/
def b64Alphabet : List Char :=
  "ABCDEFGHIJKLMNOPQRSTUVWXYZabcdefghijklmnopqrstuvwxyz0123456789+/".toList

/-- Character for a 6-bit group. -/
def b64Char (n : Nat) : Char := b64Alphabet.getD n 'A'

/-- Index of a character in the base64 alphabet (`none` if not a member). -/
def b64Index (c : Char) : Option Nat := b64Alphabet.findIdx? (· = c)

/-- Encode a byte list into base64 characters, with `=` padding. -/
def b64EncodeBytes : List Nat → List Char
  | [] => []
  | [a] => [b64Char (a / 4), b64Char (a % 4 * 16), '=', '=']
  | [a, b] => [b64Char (a / 4), b64Char (a % 4 * 16 + b / 16), b64Char (b % 16 * 4), '=']
  | a :: b :: c :: rest =>
      b64Char (a / 4) :: b64Char (a % 4 * 16 + b / 16) ::
      b64Char (b % 16 * 4 + c / 64) :: b64Char (c % 64) :: b64EncodeBytes rest

/-- Decode base64 characters (whitespace and padding already removed) into
bytes.  A trailing group of a single character is a failure; trailing bits
of groups of two or three characters are discarded. -/
def b64DecodeChars : List Char → Option (List Nat)
  | [] => some []
  | [w] => (b64Index w).bind fun _ => none
  | [w, x] =>
      (b64Index w).bind fun a => (b64Index x).bind fun b =>
        some [a * 4 + b / 16]
  | [w, x, y] =>
      (b64Index w).bind fun a => (b64Index x).bind fun b => (b64Index y).bind fun c =>
        some [a * 4 + b / 16, b % 16 * 16 + c / 4]
  | w :: x :: y :: z :: rest =>
      (b64Index w).bind fun a => (b64Index x).bind fun b =>
      (b64Index y).bind fun c => (b64Index z).bind fun d =>
        (b64DecodeChars rest).map fun bs =>
          (a * 4 + b / 16) :: (b % 16 * 16 + c / 4) :: (c % 4 * 64 + d) :: bs

/-- ASCII whitespace, as stripped by forgiving-base64 decode. -/
def isAsciiWs (c : Char) : Bool :=
  c = ' ' || c = '\t' || c = '\n' || c = '\x0c' || c = '\r'

/-- Drop up to two leading `=` of a reversed character list. -/
def stripEndPad : List Char → List Char
  | '=' :: '=' :: rest => rest
  | '=' :: rest => rest
  | zs => zs

/-- Strip up to two trailing `=` when the length is a multiple of four. -/
def b64StripPad (cs : List Char) : List Char :=
  if cs.length % 4 = 0 then (stripEndPad cs.reverse).reverse else cs

/-- `btoa`: base64-encode a latin1 string; fails (throws in JS) when a
code point exceeds 255. -/
def btoa (s : String) : Option String :=
  if s.toList.all (fun c => c.toNat ≤ 255) then
    some (String.mk (b64EncodeBytes (s.toList.map Char.toNat)))
  else none

/-- `atob`: forgiving-base64 decode to a latin1 string. -/
def atob (s : String) : Option String :=
  (b64DecodeChars (b64StripPad (s.toList.filter (fun c => ¬ isAsciiWs c)))).map
    fun bs => String.mk (bs.map Char.ofNat)

/-! ## JSON serialization of cursors (`JSON.stringify`)

`encodeCursor` is only ever applied to cursor objects, whose field values
are numbers or strings, so the embedded serializer covers exactly the
scalar JSON values plus flat objects built from them. -/

/-- Decimal digit character. -/
def digitChar (n : Nat) : Char := Char.ofNat (48 + n % 10)

/-- Hexadecimal digit character (lowercase), as emitted by
`JSON.stringify` in `\u00xx` escapes. -/
def hexChar (n : Nat) : Char :=
  if n % 16 < 10 then Char.ofNat (48 + n % 16) else Char.ofNat (87 + n % 16)

/-- Decimal digits of a natural number (`fuel`-driven; called with
`fuel = n + 1` so the fuel never runs out). -/
def natDigitsFuel : Nat → Nat → List Char
  | 0, _ => []
  | fuel + 1, n =>
      if n < 10 then [digitChar n] else natDigitsFuel fuel (n / 10) ++ [digitChar (n % 10)]

/-- Decimal digits of a natural number. -/
def natDigits (n : Nat) : List Char := natDigitsFuel (n + 1) n

/-- Decimal representation of an integer, as `JSON.stringify` renders an
integer-valued number. -/
def intChars (n : Int) : List Char :=
  if n < 0 then '-' :: natDigits n.natAbs else natDigits n.natAbs

/-- JSON string escaping of one character, following `JSON.stringify`:
quote and backslash get a backslash escape, the named control characters
get their short escapes, other control characters get `\u00xx`, and
everything else is emitted literally. -/
def escapeChar (c : Char) : List Char :=
  if c = '"' then ['\\', '"']
  else if c = '\\' then ['\\', '\\']
  else if c = '\x08' then ['\\', 'b']
  else if c = '\t' then ['\\', 't']
  else if c = '\n' then ['\\', 'n']
  else if c = '\x0c' then ['\\', 'f']
  else if c = '\r' then ['\\', 'r']
  else if c.toNat < 32 then ['\\', 'u', '0', '0', hexChar (c.toNat / 16), hexChar (c.toNat % 16)]
  else [c]

/-- JSON string escaping of a character list. -/
def escapeList : List Char → List Char
  | [] => []
  | c :: cs => escapeChar c ++ escapeList cs

/-- The characters of a JSON string literal (with its quotes). -/
def strLitChars (s : String) : List Char := '"' :: escapeList s.toList ++ ['"']

/-- Characters of a scalar JSON value (the only value shapes appearing in
cursor objects).  Composite values never reach this serializer. -/
def scalarChars : Json → List Char
  | .num n => intChars n
  | .str s => strLitChars s
  | .null => ("null" : String).toList
  | .bool b => (cond b "true" "false" : String).toList
  | .arr _ => []
  | .obj _ => []

/-- Characters of the members of a flat JSON object, comma-separated. -/
def membersChars : List (String × Json) → List Char
  | [] => []
  | [(k, v)] => strLitChars k ++ ':' :: scalarChars v
  | (k, v) :: fs => strLitChars k ++ ':' :: scalarChars v ++ ',' :: membersChars fs

/-- `JSON.stringify` of a flat object (insertion-ordered fields), the only
shape `encodeCursor` serializes. -/
def flatObjChars (fields : List (String × Json)) : List Char :=
  '\x7b' :: membersChars fields ++ ['\x7d']

/-! ## JSON parsing (`JSON.parse`) -/

/-- JSON insignificant whitespace. -/
def isJsonWs (c : Char) : Bool :=
  c = ' ' || c = '\t' || c = '\n' || c = '\r'

/-- Skip JSON whitespace. -/
def skipWs : List Char → List Char
  | [] => []
  | c :: cs => if isJsonWs c then skipWs cs else c :: cs

/-- Value of a hexadecimal digit. -/
def hexVal (c : Char) : Option Nat :=
  if '0' ≤ c ∧ c ≤ '9' then some (c.toNat - 48)
  else if 'a' ≤ c ∧ c ≤ 'f' then some (c.toNat - 87)
  else if 'A' ≤ c ∧ c ≤ 'F' then some (c.toNat - 55)
  else none

/-- Unescape a single-character JSON escape. -/
def unescapeChar (c : Char) : Option Char :=
  if c = '"' then some '"'
  else if c = '\\' then some '\\'
  else if c = '/' then some '/'
  else if c = 'b' then some '\x08'
  else if c = 'f' then some '\x0c'
  else if c = 'n' then some '\n'
  else if c = 'r' then some '\r'
  else if c = 't' then some '\t'
  else none

/-- Parse the body of a JSON string literal (after the opening quote):
returns the decoded characters and the rest after the closing quote. -/
def parseStrChars : List Char → Option (List Char × List Char)
  | [] => none
  | c :: cs =>
    if c = '"' then some ([], cs)
    else if c = '\\' then
      match cs with
      | [] => none
      | e :: cs' =>
        if e = 'u' then
          match cs' with
          | h1 :: h2 :: h3 :: h4 :: cs'' =>
            (hexVal h1).bind fun a => (hexVal h2).bind fun b =>
            (hexVal h3).bind fun c' => (hexVal h4).bind fun d =>
            (parseStrChars cs'').map fun (s, r) =>
              (Char.ofNat (a * 4096 + b * 256 + c' * 16 + d) :: s, r)
          | _ => none
        else
          (unescapeChar e).bind fun u =>
            (parseStrChars cs').map fun (s, r) => (u :: s, r)
    else if c.toNat < 32 then none
    else (parseStrChars cs).map fun (s, r) => (c :: s, r)

/-- Greedily parse decimal digits, accumulating their value. -/
def parseNatAcc (acc : Nat) : List Char → Nat × List Char
  | [] => (acc, [])
  | c :: cs =>
    if c.isDigit then parseNatAcc (acc * 10 + (c.toNat - 48)) cs else (acc, c :: cs)

/-- Parse an unsigned JSON integer: a lone `0`, or a nonzero digit
followed by more digits (leading zeros rejected, as in JSON). -/
def parseNatPart : List Char → Option (Nat × List Char)
  | [] => none
  | c :: cs =>
    if c = '0' then some (0, cs)
    else if c.isDigit then some (parseNatAcc (c.toNat - 48) cs)
    else none

mutual

/-- Parse one JSON value.  The fuel bounds the recursion through nested
composite values and member/element lists; the entry point supplies
fuel exceeding the document length, which always suffices because each
member or element consumes at least one character. -/
def parseVal : Nat → List Char → Option (Json × List Char)
  | 0, _ => none
  | fuel + 1, cs =>
    match skipWs cs with
    | [] => none
    | c :: cs' =>
      if c = '\x7b' then
        match skipWs cs' with
        | '\x7d' :: rest => some (.obj [], rest)
        | cs'' => (parseMembers fuel cs'').map fun (ms, r) => (.obj ms, r)
      else if c = '[' then
        match skipWs cs' with
        | ']' :: rest => some (.arr [], rest)
        | cs'' => (parseElems fuel cs'').map fun (es, r) => (.arr es, r)
      else if c = '"' then
        (parseStrChars cs').map fun (s, r) => (.str (String.mk s), r)
      else if c = 't' then
        match cs' with
        | 'r' :: 'u' :: 'e' :: rest => some (.bool true, rest)
        | _ => none
      else if c = 'f' then
        match cs' with
        | 'a' :: 'l' :: 's' :: 'e' :: rest => some (.bool false, rest)
        | _ => none
      else if c = 'n' then
        match cs' with
        | 'u' :: 'l' :: 'l' :: rest => some (.null, rest)
        | _ => none
      else if c = '-' then
        (parseNatPart cs').map fun (n, r) => (.num (-(n : Int)), r)
      else if c.isDigit then
        (parseNatPart (c :: cs')).map fun (n, r) => (.num (n : Int), r)
      else none

/-- Parse the (nonempty) member list of a JSON object, consuming the
closing brace. -/
def parseMembers : Nat → List Char → Option (List (String × Json) × List Char)
  | 0, _ => none
  | fuel + 1, cs =>
    match skipWs cs with
    | '"' :: cs' =>
      (parseStrChars cs').bind fun (k, r1) =>
        match skipWs r1 with
        | ':' :: r2 =>
          (parseVal fuel r2).bind fun (v, r3) =>
            match skipWs r3 with
            | ',' :: r4 =>
              (parseMembers fuel r4).map fun (ms, r5) => ((String.mk k, v) :: ms, r5)
            | '\x7d' :: r4 => some ([(String.mk k, v)], r4)
            | _ => none
        | _ => none
    | _ => none

/-- Parse the (nonempty) element list of a JSON array, consuming the
closing bracket. -/
def parseElems : Nat → List Char → Option (List Json × List Char)
  | 0, _ => none
  | fuel + 1, cs =>
    (parseVal fuel cs).bind fun (v, r1) =>
      match skipWs r1 with
      | ',' :: r2 => (parseElems fuel r2).map fun (es, r3) => (v :: es, r3)
      | ']' :: r2 => some ([v], r2)
      | _ => none

end

/-- `JSON.parse`: parse a complete document; trailing non-whitespace is an
error. -/
def jsonParse (s : String) : Option Json :=
  (parseVal (s.toList.length + 1) s.toList).bind fun (v, rest) =>
    match skipWs rest with
    | [] => some v
    | _ => none

/-! ## The cursor codec (`encodeCursor` / `decodeCursor`)

```ts
export function encodeCursor(cursor: PaginationCursor): string {
  const cursorStr = JSON.stringify(cursor);
  return btoa(cursorStr);
}
export function decodeCursor(cursor: string): PaginationCursor {
  try {
    const cursorStr = atob(cursor);
    return JSON.parse(cursorStr);
  } catch (error) {
    throw new Error('Invalid cursor format');
  }
}
```

`decodeCursor` returns whatever `JSON.parse` produced, cast to
`PaginationCursor` without any field validation, so its embedded result
type is the raw `Json` value; `none` models the
`Error('Invalid cursor format')` throw.  `encodeCursor`'s result is
`Option` because `btoa` throws on non-latin1 input. -/

/-- The `PaginationCursor` interface: `pageNo`/`pageSize` are numbers and
`productKey`/`totalItems` optional.  Field order is the interface (and
construction-site) order, which is what `JSON.stringify` serializes. -/
structure PaginationCursor where
  pageNo : Int
  pageSize : Int
  productKey : Option String := none
  totalItems : Option Int := none
deriving DecidableEq

/-- The JSON object a `PaginationCursor` value denotes (absent optional
fields are omitted, as `JSON.stringify` omits `undefined` members). -/
def cursorFields (c : PaginationCursor) : List (String × Json) :=
  [("pageNo", Json.num c.pageNo), ("pageSize", Json.num c.pageSize)]
    ++ (match c.productKey with
        | some pk => [("productKey", Json.str pk)]
        | none => [])
    ++ (match c.totalItems with
        | some t => [("totalItems", Json.num t)]
        | none => [])

/-- Serialize a flat cursor object and base64 it (the body of
`encodeCursor`, shared with the pager's successor-cursor minting, which
applies `encodeCursor` to an object literal). -/
def encodeCursorJson (fields : List (String × Json)) : Option String :=
  btoa (String.mk (flatObjChars fields))

/-- `encodeCursor`: serialize the cursor object and base64 it. -/
def encodeCursor (c : PaginationCursor) : Option String :=
  encodeCursorJson (cursorFields c)

/-- `decodeCursor`: un-base64 and parse; any failure collapses to the
single `Invalid cursor format` error (`none`).  No validation of the
parsed value is performed. -/
def decodeCursor (cursor : String) : Option Json :=
  (atob cursor).bind fun cursorStr => jsonParse cursorStr

/-! ## JS value helpers for decoded cursor fields -/

/-- Property access on a JS object: last binding of a key wins (as
`JSON.parse` builds objects).  Access on a non-object, non-null value
yields `undefined` (`none`); access on `null` throws and is handled at
the use sites. -/
def jsField (j : Json) (k : String) : Option Json :=
  match j with
  | .obj fs => fs.foldl (fun acc kv => if kv.1 = k then some kv.2 else acc) none
  | _ => none

/-- Numeric view of a JS field value, as interpolated into the request
URL.  Non-numeric values (`undefined`, strings, booleans, …) are
collapsed to `none`; the upstream oracle therefore does not distinguish
the different non-numeric renderings of the page parameters. -/
def jsToNum (v : Option Json) : Option Int :=
  match v with
  | some (.num n) => some n
  | _ => none

/-- JS truthiness of a field value (`undefined`, `null`, `false`, `0` and
`""` are falsy). -/
def jsTruthy (v : Option Json) : Bool :=
  match v with
  | none => false
  | some .null => false
  | some (.bool b) => b
  | some (.num n) => n ≠ 0
  | some (.str s) => s ≠ ""
  | some (.arr _) => true
  | some (.obj _) => true

/-- Strict equality (`===`) between a JS field value and a string. -/
def jsStrEq (v : Option Json) (t : String) : Bool :=
  match v with
  | some (.str s) => s = t
  | _ => false

/-! ## The paginated fetch orchestrators -/

/-- Outcome of one upstream page request.  `thrown` covers a rejected
`fetch` as well as a throwing `response.json()`; otherwise `ok` is
`response.ok`, `code` the business code field of the parsed body
(`none` when absent or non-numeric) and `data` its data field (`none`
when absent/falsy, otherwise the item array). -/
inductive FetchOutcome (α : Type) where
  | thrown
  | response (ok : Bool) (code : Option Int) (data : Option (List α))

/-- The ambient network: whether `getAccessToken` succeeds during this
call, and the upstream response for a page request with the given
`pageNo` and `pageSize` URL parameters. -/
structure UpstreamWorld (α : Type) where
  tokenOk : Bool
  page : Option Int → Option Int → FetchOutcome α

/-- The two errors a paginated listing call can throw:
`Error('Invalid cursor provided')` and the catch-all
`Error('Failed to get paginated products/devices list')`. -/
inductive PagerError where
  | invalidCursor
  | fetchFailed
deriving DecidableEq

/-- Result of a paginated listing call: the returned value or thrown
error, whether `getAccessToken` was invoked, and the trace of upstream
page requests (`pageNo`, `pageSize`) in order. -/
structure PagerResult (α : Type) where
  result : Except PagerError (List α × Option String)
  tokenRequested : Bool
  fetches : List (Option Int × Option Int)

/-- The rejection produced when cursor decoding or the scope check throws:
no token acquisition, no upstream request. -/
def cursorReject (α : Type) : PagerResult α :=
  ⟨.error .invalidCursor, false, []⟩

/-- A JS number that may be `NaN` (from `undefined + 1`), as serialized
by `JSON.stringify` (`NaN` becomes `null`). -/
def jsNumJson (v : Option Int) : Json :=
  match v with
  | some n => Json.num n
  | none => Json.null

/-- Body of `listProductsPaginated` after cursor decoding: primary fetch
(token, HTTP status and business code all checked), then — exactly when
the page is full — a lookahead fetch of `pageNo + 1` whose own failure is
swallowed, minting a successor cursor only if it is `ok` with business
code `200` and a nonempty `data` array. -/
def productsCore {α : Type} (w : UpstreamWorld α) (pageNo pageSize : Option Int) :
    PagerResult α :=
  if w.tokenOk = false then ⟨.error .fetchFailed, true, []⟩
  else
    match w.page pageNo pageSize with
    | .thrown => ⟨.error .fetchFailed, true, [(pageNo, pageSize)]⟩
    | .response ok code data =>
      if ok = false then ⟨.error .fetchFailed, true, [(pageNo, pageSize)]⟩
      else if code ≠ some 200 then ⟨.error .fetchFailed, true, [(pageNo, pageSize)]⟩
      else
        let products := data.getD []
        if pageSize = some (products.length : Int) then
          let nextNo := pageNo.map (· + 1)
          let nextCursor : Option String :=
            match w.page nextNo pageSize with
            | .response true (some 200) (some d) =>
              if 0 < d.length then
                encodeCursorJson [("pageNo", jsNumJson nextNo), ("pageSize", jsNumJson pageSize)]
              else none
            | _ => none
          ⟨.ok (products, nextCursor), true, [(pageNo, pageSize), (nextNo, pageSize)]⟩
        else ⟨.ok (products, none), true, [(pageNo, pageSize)]⟩

/-- `listProductsPaginated`: decode the cursor if supplied (any decode
failure, including property access on a decoded `null`, throws
`Invalid cursor provided` before any network activity), then run the
fetch body. -/
def listProductsPaginated {α : Type} (w : UpstreamWorld α) (cursor : Option String)
    (defaultPageSize : Int := 15) : PagerResult α :=
  match cursor with
  | none => productsCore w (some 1) (some defaultPageSize)
  | some tok =>
    match decodeCursor tok with
    | none => cursorReject α
    | some .null => cursorReject α
    | some j => productsCore w (jsToNum (jsField j "pageNo")) (jsToNum (jsField j "pageSize"))

/-- Body of `listDevicesPaginated` after cursor decoding and the scope
check.  Unlike the products body, the business code of the primary
response is never inspected; the lookahead mints a successor cursor
(stamped with the product key) when it is `ok` with nonempty `data`,
regardless of its business code. -/
def devicesCore {α : Type} (w : UpstreamWorld α) (productKey : String)
    (pageNo pageSize : Option Int) : PagerResult α :=
  if w.tokenOk = false then ⟨.error .fetchFailed, true, []⟩
  else
    match w.page pageNo pageSize with
    | .thrown => ⟨.error .fetchFailed, true, [(pageNo, pageSize)]⟩
    | .response ok _code data =>
      if ok = false then ⟨.error .fetchFailed, true, [(pageNo, pageSize)]⟩
      else
        let devices := data.getD []
        if pageSize = some (devices.length : Int) then
          let nextNo := pageNo.map (· + 1)
          let nextCursor : Option String :=
            match w.page nextNo pageSize with
            | .response true _ (some d) =>
              if 0 < d.length then
                encodeCursorJson
                  [("pageNo", jsNumJson nextNo), ("pageSize", jsNumJson pageSize),
                   ("productKey", Json.str productKey)]
              else none
            | _ => none
          ⟨.ok (devices, nextCursor), true, [(pageNo, pageSize), (nextNo, pageSize)]⟩
        else ⟨.ok (devices, none), true, [(pageNo, pageSize)]⟩

/-- `listDevicesPaginated`: decode the cursor if supplied; inside the same
`try` block, reject when the decoded cursor's `productKey` field is
truthy and differs (`!==`) from the caller's product key.  Both the
decode failure and the scope mismatch are rethrown by the shared `catch`
as the same `Invalid cursor provided` error. -/
def listDevicesPaginated {α : Type} (w : UpstreamWorld α) (productKey : String)
    (cursor : Option String) (defaultPageSize : Int := 15) : PagerResult α :=
  match cursor with
  | none => devicesCore w productKey (some 1) (some defaultPageSize)
  | some tok =>
    match decodeCursor tok with
    | none => cursorReject α
    | some .null => cursorReject α
    | some j =>
      if jsTruthy (jsField j "productKey") && ! jsStrEq (jsField j "productKey") productKey then
        cursorReject α
      else
        devicesCore w productKey (jsToNum (jsField j "pageNo")) (jsToNum (jsField j "pageSize"))

/-! ## The aggregating loops (`listProducts` / `listDevices`)

Both loop from `pageNo = 1`, incrementing by one, and break once the
incremented `pageNo` exceeds 100 (`if (pageNo > 100) break`).  The
embedding carries that safety bound as structural fuel maintained at
`100 - pageNo`, so fuel `0` coincides exactly with the `pageNo > 100`
break.  The second component of the result is the trace of fetched page
numbers. -/

/-- Loop body of `listProducts`: a failed token acquisition, thrown
fetch, non-`ok` response or non-200 business code rethrows on page 1 and
breaks on later pages; missing/empty `data` breaks; a short page breaks
after accumulating; a full page continues to `pageNo + 1` unless the
safety bound fires. -/
def productsLoop {α : Type} (w : UpstreamWorld α) (pageSize : Int) :
    Nat → Nat → List α → Except Unit (List α) × List Nat
  | fuel, pageNo, acc =>
    if w.tokenOk = false then
      (if pageNo = 1 then .error () else .ok acc, [])
    else
      match w.page (some pageNo) (some pageSize) with
      | .thrown => (if pageNo = 1 then .error () else .ok acc, [pageNo])
      | .response ok code data =>
        if ok = false then (if pageNo = 1 then .error () else .ok acc, [pageNo])
        else if code ≠ some 200 then (if pageNo = 1 then .error () else .ok acc, [pageNo])
        else
          match data with
          | none => (.ok acc, [pageNo])
          | some d =>
            if d.length = 0 then (.ok acc, [pageNo])
            else
              if (d.length : Int) < pageSize then (.ok (acc ++ d), [pageNo])
              else
                match fuel with
                | 0 => (.ok (acc ++ d), [pageNo])
                | fuel' + 1 =>
                  let rec' := productsLoop w pageSize fuel' (pageNo + 1) (acc ++ d)
                  (rec'.1, pageNo :: rec'.2)

/-- `listProducts`: aggregate all product pages (default page size 100),
starting at page 1 with the safety bound at page 100. -/
def listProducts {α : Type} (w : UpstreamWorld α) (pageSize : Int := 100) :
    Except Unit (List α) × List Nat :=
  productsLoop w pageSize 99 1 []

/-- Loop body of `listDevices`: identical to `productsLoop` except that
the business code of the response is never inspected. -/
def devicesLoop {α : Type} (w : UpstreamWorld α) (pageSize : Int) :
    Nat → Nat → List α → Except Unit (List α) × List Nat
  | fuel, pageNo, acc =>
    if w.tokenOk = false then
      (if pageNo = 1 then .error () else .ok acc, [])
    else
      match w.page (some pageNo) (some pageSize) with
      | .thrown => (if pageNo = 1 then .error () else .ok acc, [pageNo])
      | .response ok _code data =>
        if ok = false then (if pageNo = 1 then .error () else .ok acc, [pageNo])
        else
          match data with
          | none => (.ok acc, [pageNo])
          | some d =>
            if d.length = 0 then (.ok acc, [pageNo])
            else
              if (d.length : Int) < pageSize then (.ok (acc ++ d), [pageNo])
              else
                match fuel with
                | 0 => (.ok (acc ++ d), [pageNo])
                | fuel' + 1 =>
                  let rec' := devicesLoop w pageSize fuel' (pageNo + 1) (acc ++ d)
                  (rec'.1, pageNo :: rec'.2)

/-- `listDevices`: aggregate all device pages of a product (default page
size 100), starting at page 1 with the safety bound at page 100. -/
def listDevices {α : Type} (w : UpstreamWorld α) (pageSize : Int := 100) :
    Except Unit (List α) × List Nat :=
  devicesLoop w pageSize 99 1 []

/-! ## The token cache (`getAccessToken`)

```ts
let accessToken: string | null = null;
let tokenExpiry: number = 0;
export async function getAccessToken(env) {
  if (accessToken && Date.now() < tokenExpiry) { return accessToken; }
  ...fetch...
  accessToken = tokenData.access_token;
  if (!accessToken) { throw ... }
  tokenExpiry = Date.now() + 3600000;
  return accessToken;
}
```

The module-level mutable cache is modelled as explicit state threaded
through the call; `Date.now()` is modelled as a single instant `now` per
call.  `TokenNet.success tok` is a `2xx` login response whose parsed body
has `access_token = tok` (`none` when the field is absent, i.e. the
global is assigned `undefined` before the truthiness check rejects it);
`TokenNet.thrown` covers a rejected fetch, a non-`ok` response and a
throwing `json()`. -/

/-- The module-level token cache (`accessToken`, `tokenExpiry`). -/
structure TokenState where
  accessToken : Option String
  tokenExpiry : Int
deriving DecidableEq

/-- The cache state at module load. -/
def initialTokenState : TokenState := ⟨none, 0⟩

/-- Outcome of the login fetch. -/
inductive TokenNet where
  | thrown
  | success (tok : Option String)

/-- JS truthiness of the `accessToken` global (`null`, `undefined` and
`""` are falsy). -/
def tokenTruthy (t : Option String) : Bool :=
  match t with
  | none => false
  | some s => s ≠ ""

/-- Unpadded base64 encoding — the form `b64StripPad` leaves. -/
def b64EncodeNP : List Nat → List Char
  | [] => []
  | [a] => [b64Char (a / 4), b64Char (a % 4 * 16)]
  | [a, b] => [b64Char (a / 4), b64Char (a % 4 * 16 + b / 16), b64Char (b % 16 * 4)]
  | a :: b :: c :: rest =>
      b64Char (a / 4) :: b64Char (a % 4 * 16 + b / 16) ::
      b64Char (b % 16 * 4 + c / 64) :: b64Char (c % 64) :: b64EncodeNP rest

/-- The value shapes that occur in serialized cursor objects. -/
def scalarOk : Json → Prop
  | .null => True
  | .num _ => True
  | .str _ => True
  | _ => False

/-- Latin1-ness of the scalar field values of a cursor object. -/
def scalarLatin1 : Json → Prop
  | .str s => ∀ c ∈ s.toList, c.toNat ≤ 255
  | _ => True

/-- The JSON object denoted by a cursor value. -/
def cursorToJson (c : PaginationCursor) : Json := Json.obj (cursorFields c)

/-- The page parameters a products-listing call resolves to (`none` when
cursor handling throws before any network activity). -/
def productsCallParams (cursor : Option String) (d : Int) :
    Option (Option Int × Option Int) :=
  match cursor with
  | none => some (some 1, some d)
  | some tok =>
    match decodeCursor tok with
    | none => none
    | some .null => none
    | some j => some (jsToNum (jsField j "pageNo"), jsToNum (jsField j "pageSize"))

/-- The page parameters a devices-listing call resolves to (`none` when
cursor handling, including the scope check, throws). -/
def devicesCallParams (productKey : String) (cursor : Option String) (d : Int) :
    Option (Option Int × Option Int) :=
  match cursor with
  | none => some (some 1, some d)
  | some tok =>
    match decodeCursor tok with
    | none => none
    | some .null => none
    | some j =>
      if jsTruthy (jsField j "productKey") && ! jsStrEq (jsField j "productKey") productKey
      then none
      else some (jsToNum (jsField j "pageNo"), jsToNum (jsField j "pageSize"))

/-- `getAccessToken`: return the cached token while it is truthy and
unexpired; otherwise hit the network, store the received token, and on a
truthy token set the expiry one hour from now.  The result records the
returned token (or the thrown error), the updated cache, and whether the
network was contacted. -/
def getAccessToken (st : TokenState) (now : Int) (net : TokenNet) :
    Except Unit String × TokenState × Bool :=
  if tokenTruthy st.accessToken ∧ now < st.tokenExpiry then
    (.ok (st.accessToken.getD ""), st, false)
  else
    match net with
    | .thrown => (.error (), st, true)
    | .success tok =>
      if tokenTruthy tok then
        (.ok (tok.getD ""), ⟨tok, now + 3600000⟩, true)
      else
        (.error (), ⟨tok, st.tokenExpiry⟩, true)

/-! ## Base64 round-trip -/

theorem b64Index_b64Char {k : Nat} (h : k < 64) : b64Index (b64Char k) = some k := by
  revert k h
  decide

theorem b64Char_ne_pad (k : Nat) : b64Char k ≠ '=' := by
  rcases Nat.lt_or_ge k 64 with h | h
  · revert k h
    decide
  · have hA : b64Char k = 'A' := by
      unfold b64Char
      exact List.getD_eq_default _ _ (by change 64 ≤ k at h; simpa using h)
    rw [hA]
    decide

theorem b64Char_not_ws (k : Nat) : isAsciiWs (b64Char k) = false := by
  rcases Nat.lt_or_ge k 64 with h | h
  · revert k h
    decide
  · have hA : b64Char k = 'A' := by
      unfold b64Char
      exact List.getD_eq_default _ _ (by change 64 ≤ k at h; simpa using h)
    rw [hA]
    decide

theorem stripEndPad_cons_cons (z1 z2 : Char) (zs : List Char) :
    stripEndPad (z1 :: z2 :: zs) =
      if z1 = '=' then (if z2 = '=' then zs else z2 :: zs) else z1 :: z2 :: zs := by
  unfold stripEndPad
  split
  next rest heq =>
    simp only [List.cons.injEq] at heq
    obtain ⟨h1, h2, h3⟩ := heq
    subst h1; subst h2; subst h3
    simp
  next rest heq hne =>
    simp only [List.cons.injEq] at hne
    obtain ⟨h1, h2⟩ := hne
    subst h1
    have hz2 : z2 ≠ '=' := by
      intro h
      subst h
      exact heq zs h2.symm
    rw [if_pos rfl, if_neg hz2, h2]
  next h1 h2 =>
    have hz1 : z1 ≠ '=' := by
      intro h
      subst h
      rcases eq_or_ne z2 '=' with h' | h'
      · subst h'
        exact h1 zs rfl
      · exact h2 (z2 :: zs) rfl
    rw [if_neg hz1]

theorem stripEndPad_append (z1 z2 : Char) (zs tail : List Char) :
    stripEndPad (z1 :: z2 :: zs ++ tail) = stripEndPad (z1 :: z2 :: zs) ++ tail := by
  have h1 := stripEndPad_cons_cons z1 z2 (zs ++ tail)
  have h2 := stripEndPad_cons_cons z1 z2 zs
  rw [show z1 :: z2 :: zs ++ tail = z1 :: z2 :: (zs ++ tail) from rfl, h1, h2]
  split_ifs <;> simp

theorem b64EncodeBytes_len (bs : List Nat) : (b64EncodeBytes bs).length % 4 = 0 := by
  induction bs using b64EncodeBytes.induct with
  | case1 => rfl
  | case2 a => simp [b64EncodeBytes]
  | case3 a b => simp [b64EncodeBytes]
  | case4 a b c rest ih => simp [b64EncodeBytes, List.length_cons]; omega

theorem b64EncodeBytes_len_ge (bs : List Nat) (h : bs ≠ []) :
    4 ≤ (b64EncodeBytes bs).length := by
  match bs with
  | [] => exact absurd rfl h
  | [a] => simp [b64EncodeBytes]
  | [a, b] => simp [b64EncodeBytes]
  | a :: b :: c :: rest =>
    simp only [b64EncodeBytes, List.length_cons]
    omega

theorem b64EncodeBytes_not_ws (bs : List Nat) :
    ∀ x ∈ b64EncodeBytes bs, isAsciiWs x = false := by
  induction bs using b64EncodeBytes.induct with
  | case1 => intro x hx; simp [b64EncodeBytes] at hx
  | case2 a =>
    intro x hx
    simp only [b64EncodeBytes, List.mem_cons, List.not_mem_nil, or_false] at hx
    rcases hx with h | h | h | h <;> subst h
    · exact b64Char_not_ws _
    · exact b64Char_not_ws _
    · decide
    · decide
  | case3 a b =>
    intro x hx
    simp only [b64EncodeBytes, List.mem_cons, List.not_mem_nil, or_false] at hx
    rcases hx with h | h | h | h <;> subst h
    · exact b64Char_not_ws _
    · exact b64Char_not_ws _
    · exact b64Char_not_ws _
    · decide
  | case4 a b c rest ih =>
    intro x hx
    simp only [b64EncodeBytes, List.mem_cons] at hx
    rcases hx with h | h | h | h | h
    · subst h; exact b64Char_not_ws _
    · subst h; exact b64Char_not_ws _
    · subst h; exact b64Char_not_ws _
    · subst h; exact b64Char_not_ws _
    · exact ih x h

theorem exists_cons_cons (l : List Char) (h : 2 ≤ l.length) :
    ∃ z1 z2 zs, l = z1 :: z2 :: zs := by
  match l with
  | z1 :: z2 :: zs => exact ⟨z1, z2, zs, rfl⟩
  | [] => simp at h
  | [z] => simp at h

theorem b64StripPad_encode (bs : List Nat) :
    b64StripPad (b64EncodeBytes bs) = b64EncodeNP bs := by
  induction bs using b64EncodeBytes.induct with
  | case1 => rfl
  | case2 a =>
    show b64StripPad [b64Char (a / 4), b64Char (a % 4 * 16), '=', '='] = _
    unfold b64StripPad
    rw [if_pos (by simp)]
    simp only [List.reverse_cons, List.reverse_nil, List.nil_append, List.cons_append]
    rw [stripEndPad_cons_cons, if_pos rfl, if_pos rfl]
    simp [b64EncodeNP]
  | case3 a b =>
    show b64StripPad
        [b64Char (a / 4), b64Char (a % 4 * 16 + b / 16), b64Char (b % 16 * 4), '='] = _
    unfold b64StripPad
    rw [if_pos (by simp)]
    simp only [List.reverse_cons, List.reverse_nil, List.nil_append, List.cons_append]
    rw [stripEndPad_cons_cons, if_pos rfl, if_neg (b64Char_ne_pad _)]
    simp [b64EncodeNP]
  | case4 a b c rest ih =>
    rcases eq_or_ne rest [] with hrest | hrest
    · subst hrest
      show b64StripPad [b64Char (a / 4), b64Char (a % 4 * 16 + b / 16),
        b64Char (b % 16 * 4 + c / 64), b64Char (c % 64)] = _
      unfold b64StripPad
      rw [if_pos (by simp)]
      simp only [List.reverse_cons, List.reverse_nil, List.nil_append, List.cons_append]
      rw [stripEndPad_cons_cons, if_neg (b64Char_ne_pad _)]
      simp [b64EncodeNP, b64EncodeBytes]
    · have hge : 4 ≤ (b64EncodeBytes rest).length := b64EncodeBytes_len_ge rest hrest
      obtain ⟨z1, z2, zs, hz⟩ :=
        exists_cons_cons (b64EncodeBytes rest).reverse (by simp; omega)
      have hEeq : b64EncodeBytes (a :: b :: c :: rest)
          = b64Char (a / 4) :: b64Char (a % 4 * 16 + b / 16) ::
            b64Char (b % 16 * 4 + c / 64) :: b64Char (c % 64) :: b64EncodeBytes rest := rfl
      have key : (b64EncodeBytes (a :: b :: c :: rest)).reverse
          = (z1 :: z2 :: zs) ++ [b64Char (c % 64), b64Char (b % 16 * 4 + c / 64),
              b64Char (a % 4 * 16 + b / 16), b64Char (a / 4)] := by
        rw [hEeq]
        simp [hz]
      have ih2 : (stripEndPad (z1 :: z2 :: zs)).reverse = b64EncodeNP rest := by
        rw [← hz]
        unfold b64StripPad at ih
        rw [if_pos (b64EncodeBytes_len _)] at ih
        exact ih
      unfold b64StripPad
      rw [if_pos (b64EncodeBytes_len _), key, stripEndPad_append]
      rw [List.reverse_append, ih2]
      rfl

theorem b64DecodeChars_encodeNP (bs : List Nat) (h : ∀ x ∈ bs, x < 256) :
    b64DecodeChars (b64EncodeNP bs) = some bs := by
  induction bs using b64EncodeNP.induct with
  | case1 => rfl
  | case2 a =>
    have ha : a < 256 := h a (by simp)
    show b64DecodeChars [b64Char (a / 4), b64Char (a % 4 * 16)] = some [a]
    unfold b64DecodeChars
    rw [b64Index_b64Char (by omega), b64Index_b64Char (by omega)]
    simp only [Option.some_bind]
    congr 1
    have : a / 4 * 4 + a % 4 * 16 / 16 = a := by omega
    rw [this]
  | case3 a b =>
    have ha : a < 256 := h a (by simp)
    have hb : b < 256 := h b (by simp)
    show b64DecodeChars [b64Char (a / 4), b64Char (a % 4 * 16 + b / 16),
      b64Char (b % 16 * 4)] = some [a, b]
    unfold b64DecodeChars
    rw [b64Index_b64Char (by omega), b64Index_b64Char (by omega),
      b64Index_b64Char (by omega)]
    simp only [Option.some_bind]
    congr 1
    have h1 : a / 4 * 4 + (a % 4 * 16 + b / 16) / 16 = a := by omega
    have h2 : (a % 4 * 16 + b / 16) % 16 * 16 + b % 16 * 4 / 4 = b := by omega
    rw [h1, h2]
  | case4 a b c rest ih =>
    have ha : a < 256 := h a (by simp)
    have hb : b < 256 := h b (by simp)
    have hc : c < 256 := h c (by simp)
    have hrest : ∀ x ∈ rest, x < 256 := fun x hx => h x (by simp [hx])
    show b64DecodeChars (b64Char (a / 4) :: b64Char (a % 4 * 16 + b / 16) ::
      b64Char (b % 16 * 4 + c / 64) :: b64Char (c % 64) :: b64EncodeNP rest)
      = some (a :: b :: c :: rest)
    unfold b64DecodeChars
    rw [b64Index_b64Char (by omega), b64Index_b64Char (by omega),
      b64Index_b64Char (by omega), b64Index_b64Char (by omega)]
    simp only [Option.some_bind]
    rw [ih hrest]
    simp only [Option.map_some']
    congr 1
    have h1 : a / 4 * 4 + (a % 4 * 16 + b / 16) / 16 = a := by omega
    have h2 : (a % 4 * 16 + b / 16) % 16 * 16 + (b % 16 * 4 + c / 64) / 4 = b := by omega
    have h3 : (b % 16 * 4 + c / 64) % 4 * 64 + c % 64 = c := by omega
    rw [h1, h2, h3]

/-- Base64 round-trip at the string level: whatever `btoa` produces,
`atob` decodes back to the original string. -/
theorem atob_btoa (s t : String) (h : btoa s = some t) : atob t = some s := by
  unfold btoa at h
  by_cases hall : s.toList.all (fun c => c.toNat ≤ 255)
  · rw [if_pos hall] at h
    have ht : t = String.mk (b64EncodeBytes (s.toList.map Char.toNat)) :=
      (Option.some.injEq _ _ ▸ h).symm
    subst ht
    unfold atob
    have htl : (String.mk (b64EncodeBytes (s.toList.map Char.toNat))).toList
        = b64EncodeBytes (s.toList.map Char.toNat) := rfl
    rw [htl]
    rw [List.filter_eq_self.mpr (by
      intro x hx
      have := b64EncodeBytes_not_ws (s.toList.map Char.toNat) x hx
      simp [this])]
    rw [b64StripPad_encode]
    rw [b64DecodeChars_encodeNP _ (by
      intro x hx
      simp only [List.mem_map] at hx
      obtain ⟨c, hc, rfl⟩ := hx
      have := List.all_eq_true.mp hall c hc
      simp at this
      omega)]
    simp only [Option.map_some']
    congr 1
    have : (s.toList.map Char.toNat).map Char.ofNat = s.toList := by
      rw [List.map_map]
      have : (Char.ofNat ∘ Char.toNat) = id := by
        funext c
        exact Char.ofNat_toNat c
      rw [this, List.map_id]
    rw [this]
    rfl
  · rw [if_neg hall] at h
    exact absurd h (by simp)

/-! ## Parsing inverts serialization -/

theorem digitChar_mod (n : Nat) : digitChar n = digitChar (n % 10) := by
  unfold digitChar
  rw [Nat.mod_mod_of_dvd n (by norm_num)]

theorem digitChar_facts (k : Nat) (h : k < 10) :
    (digitChar k).isDigit = true ∧ (digitChar k).toNat = 48 + k ∧
    isJsonWs (digitChar k) = false := by
  revert k h
  decide

theorem digitChar_ne_zero (k : Nat) (h1 : 1 ≤ k) (h2 : k < 10) : digitChar k ≠ '0' := by
  revert k h1 h2
  decide

theorem parseNatAcc_stop (acc : Nat) (rest : List Char)
    (h : ∀ c ∈ rest.head?, c.isDigit = false) :
    parseNatAcc acc rest = (acc, rest) := by
  match rest with
  | [] => rfl
  | c :: cs =>
    have hc : c.isDigit = false := h c (by simp)
    unfold parseNatAcc
    rw [if_neg (by simp [hc])]

theorem parseNatAcc_cons_digit (acc : Nat) (c : Char) (cs : List Char)
    (h : c.isDigit = true) :
    parseNatAcc acc (c :: cs) = parseNatAcc (acc * 10 + (c.toNat - 48)) cs := by
  rw [show parseNatAcc acc (c :: cs)
      = if c.isDigit then parseNatAcc (acc * 10 + (c.toNat - 48)) cs else (acc, c :: cs)
      from rfl]
  rw [h]
  simp

theorem parseNatAcc_digits (fuel n : Nat) (h : n < fuel) (acc : Nat) (rest : List Char) :
    parseNatAcc acc (natDigitsFuel fuel n ++ rest)
      = parseNatAcc (acc * 10 ^ (natDigitsFuel fuel n).length + n) rest := by
  induction fuel generalizing n acc rest with
  | zero => omega
  | succ fuel ih =>
    by_cases h10 : n < 10
    · obtain ⟨hd, ht, -⟩ := digitChar_facts n h10
      have hdef : natDigitsFuel (fuel + 1) n = [digitChar n] := by
        show (if n < 10 then [digitChar n] else _) = _
        rw [if_pos h10]
      rw [hdef]
      show parseNatAcc acc (digitChar n :: rest) = _
      rw [parseNatAcc_cons_digit _ _ _ hd, ht]
      have harith : acc * 10 + (48 + n - 48) = acc * 10 ^ ([digitChar n].length) + n := by
        simp only [List.length_singleton, pow_one]
        omega
      rw [harith]
    · have hrec : natDigitsFuel (fuel + 1) n
          = natDigitsFuel fuel (n / 10) ++ [digitChar (n % 10)] := by
        show (if n < 10 then [digitChar n] else
          natDigitsFuel fuel (n / 10) ++ [digitChar (n % 10)]) = _
        rw [if_neg h10]
      rw [hrec, List.append_assoc]
      have hdiv : n / 10 < fuel := by omega
      rw [ih (n / 10) hdiv acc ([digitChar (n % 10)] ++ rest)]
      have hmod : n % 10 < 10 := Nat.mod_lt n (by norm_num)
      obtain ⟨hd, ht, -⟩ := digitChar_facts (n % 10) hmod
      show parseNatAcc _ (digitChar (n % 10) :: rest) = _
      rw [parseNatAcc_cons_digit _ _ _ hd, ht]
      have harith :
          (acc * 10 ^ (natDigitsFuel fuel (n / 10)).length + n / 10) * 10 + (48 + n % 10 - 48)
            = acc * 10 ^ ((natDigitsFuel fuel (n / 10) ++ [digitChar (n % 10)]).length) + n := by
        simp only [List.length_append, List.length_cons, List.length_nil, Nat.zero_add]
        rw [pow_succ, ← mul_assoc]
        generalize acc * 10 ^ (natDigitsFuel fuel (n / 10)).length = Q
        omega
      rw [harith]

theorem natDigitsFuel_head (fuel n : Nat) (h : n < fuel) :
    ∃ k tail, k < 10 ∧ natDigitsFuel fuel n = digitChar k :: tail ∧ (1 ≤ n → 1 ≤ k) := by
  induction fuel generalizing n with
  | zero => omega
  | succ fuel ih =>
    by_cases h10 : n < 10
    · refine ⟨n, [], h10, ?_, fun h1 => h1⟩
      show (if n < 10 then [digitChar n] else _) = _
      rw [if_pos h10]
    · have hrec : natDigitsFuel (fuel + 1) n
          = natDigitsFuel fuel (n / 10) ++ [digitChar (n % 10)] := by
        show (if n < 10 then [digitChar n] else
          natDigitsFuel fuel (n / 10) ++ [digitChar (n % 10)]) = _
        rw [if_neg h10]
      obtain ⟨k, tail, hk, heq, hpos⟩ := ih (n / 10) (by omega)
      exact ⟨k, tail ++ [digitChar (n % 10)], hk, by rw [hrec, heq]; rfl,
        fun _ => hpos (by omega)⟩

theorem natDigitsFuel_chars (fuel n : Nat) :
    ∀ x ∈ natDigitsFuel fuel n, ∃ k, k < 10 ∧ x = digitChar k := by
  induction fuel generalizing n with
  | zero => intro x hx; simp [natDigitsFuel] at hx
  | succ fuel ih =>
    intro x hx
    by_cases h10 : n < 10
    · rw [show natDigitsFuel (fuel + 1) n = [digitChar n] by
        show (if n < 10 then [digitChar n] else _) = _; rw [if_pos h10]] at hx
      simp at hx
      exact ⟨n, h10, hx⟩
    · rw [show natDigitsFuel (fuel + 1) n
          = natDigitsFuel fuel (n / 10) ++ [digitChar (n % 10)] by
        show (if n < 10 then [digitChar n] else _) = _; rw [if_neg h10]] at hx
      rw [List.mem_append] at hx
      rcases hx with hx | hx
      · exact ih (n / 10) x hx
      · simp at hx
        exact ⟨n % 10, Nat.mod_lt n (by norm_num), hx⟩

theorem parseNatPart_digits (n : Nat) (rest : List Char)
    (hrest : ∀ c ∈ rest.head?, c.isDigit = false) :
    parseNatPart (natDigits n ++ rest) = some (n, rest) := by
  have hstop : parseNatAcc 0 (natDigits n ++ rest) = (n, rest) := by
    unfold natDigits
    rw [parseNatAcc_digits (n + 1) n (by omega) 0 rest]
    rw [show 0 * 10 ^ (natDigitsFuel (n + 1) n).length + n = n by simp]
    exact parseNatAcc_stop n rest hrest
  rcases Nat.eq_zero_or_pos n with h0 | hpos
  · subst h0
    show parseNatPart ('0' :: rest) = some (0, rest)
    rw [show parseNatPart ('0' :: rest)
        = if '0' = '0' then some (0, rest)
          else if Char.isDigit '0' then some (parseNatAcc (Char.toNat '0' - 48) rest)
          else none from rfl]
    rw [if_pos rfl]
  · obtain ⟨k, tail, hk, heq, hk1⟩ := natDigitsFuel_head (n + 1) n (by omega)
    have heq' : natDigits n = digitChar k :: tail := heq
    obtain ⟨hd, ht, -⟩ := digitChar_facts k hk
    have hne0 : digitChar k ≠ '0' := digitChar_ne_zero k (hk1 hpos) hk
    rw [heq']
    show parseNatPart (digitChar k :: (tail ++ rest)) = some (n, rest)
    rw [show parseNatPart (digitChar k :: (tail ++ rest))
        = if digitChar k = '0' then some (0, tail ++ rest)
          else if (digitChar k).isDigit then
            some (parseNatAcc ((digitChar k).toNat - 48) (tail ++ rest))
          else none from rfl]
    rw [if_neg hne0, if_pos (by simp [hd]), ht]
    have hchain : parseNatAcc (48 + k - 48) (tail ++ rest) = (n, rest) := by
      have h2 : parseNatAcc 0 (natDigits n ++ rest)
          = parseNatAcc (0 * 10 + k) (tail ++ rest) := by
        rw [heq']
        show parseNatAcc 0 (digitChar k :: (tail ++ rest)) = _
        rw [parseNatAcc_cons_digit _ _ _ hd, ht]
        congr 1
        omega
      rw [show 48 + k - 48 = 0 * 10 + k by omega, ← h2, hstop]
    rw [hchain]

theorem skipWs_cons (c : Char) (cs : List Char) (h : isJsonWs c = false) :
    skipWs (c :: cs) = c :: cs := by
  unfold skipWs
  rw [h]
  simp

theorem hexVal_hexChar (k : Nat) (h : k < 16) : hexVal (hexChar k) = some k := by
  revert k h
  decide

theorem parseStrChars_escape (cs rest : List Char) :
    parseStrChars (escapeList cs ++ '"' :: rest) = some (cs, rest) := by
  induction cs generalizing rest with
  | nil =>
    show parseStrChars ('"' :: rest) = some ([], rest)
    unfold parseStrChars
    simp
  | cons c cs ih =>
    show parseStrChars ((escapeChar c ++ escapeList cs) ++ '"' :: rest) = _
    rw [List.append_assoc]
    by_cases h1 : c = '"'
    · subst h1
      rw [show escapeChar '"' = ['\\', '"'] from rfl]
      show parseStrChars ('\\' :: '"' :: (escapeList cs ++ '"' :: rest)) = _
      unfold parseStrChars
      simp only [if_neg (show ¬ '\\' = '"' by decide), if_pos rfl]
      rw [if_neg (show ¬('"' : Char) = 'u' by decide),
        show unescapeChar '"' = some '"' from rfl]
      simp only [Option.some_bind]
      rw [ih rest]
      simp
    · by_cases h2 : c = '\\'
      · subst h2
        rw [show escapeChar '\\' = ['\\', '\\'] from rfl]
        show parseStrChars ('\\' :: '\\' :: (escapeList cs ++ '"' :: rest)) = _
        unfold parseStrChars
        simp only [if_neg (show ¬ '\\' = '"' by decide), if_pos rfl]
        rw [if_neg (show ¬('\\' : Char) = 'u' by decide),
          show unescapeChar '\\' = some '\\' from rfl]
        simp only [Option.some_bind]
        rw [ih rest]
        simp
      · by_cases h3 : c = '\x08'
        · subst h3
          rw [show escapeChar '\x08' = ['\\', 'b'] from rfl]
          show parseStrChars ('\\' :: 'b' :: (escapeList cs ++ '"' :: rest)) = _
          unfold parseStrChars
          simp only [if_neg (show ¬ '\\' = '"' by decide), if_pos rfl]
          rw [if_neg (show ¬('b' : Char) = 'u' by decide),
            show unescapeChar 'b' = some '\x08' from rfl]
          simp only [Option.some_bind]
          rw [ih rest]
          simp
        · by_cases h4 : c = '\t'
          · subst h4
            rw [show escapeChar '\t' = ['\\', 't'] from rfl]
            show parseStrChars ('\\' :: 't' :: (escapeList cs ++ '"' :: rest)) = _
            unfold parseStrChars
            simp only [if_neg (show ¬ '\\' = '"' by decide), if_pos rfl]
            rw [if_neg (show ¬('t' : Char) = 'u' by decide),
              show unescapeChar 't' = some '\t' from rfl]
            simp only [Option.some_bind]
            rw [ih rest]
            simp
          · by_cases h5 : c = '\n'
            · subst h5
              rw [show escapeChar '\n' = ['\\', 'n'] from rfl]
              show parseStrChars ('\\' :: 'n' :: (escapeList cs ++ '"' :: rest)) = _
              unfold parseStrChars
              simp only [if_neg (show ¬ '\\' = '"' by decide), if_pos rfl]
              rw [if_neg (show ¬('n' : Char) = 'u' by decide),
                show unescapeChar 'n' = some '\n' from rfl]
              simp only [Option.some_bind]
              rw [ih rest]
              simp
            · by_cases h6 : c = '\x0c'
              · subst h6
                rw [show escapeChar '\x0c' = ['\\', 'f'] from rfl]
                show parseStrChars ('\\' :: 'f' :: (escapeList cs ++ '"' :: rest)) = _
                unfold parseStrChars
                simp only [if_neg (show ¬ '\\' = '"' by decide), if_pos rfl]
                rw [if_neg (show ¬('f' : Char) = 'u' by decide),
                  show unescapeChar 'f' = some '\x0c' from rfl]
                simp only [Option.some_bind]
                rw [ih rest]
                simp
              · by_cases h7 : c = '\r'
                · subst h7
                  rw [show escapeChar '\r' = ['\\', 'r'] from rfl]
                  show parseStrChars ('\\' :: 'r' :: (escapeList cs ++ '"' :: rest)) = _
                  unfold parseStrChars
                  simp only [if_neg (show ¬ '\\' = '"' by decide), if_pos rfl]
                  rw [if_neg (show ¬('r' : Char) = 'u' by decide),
                    show unescapeChar 'r' = some '\r' from rfl]
                  simp only [Option.some_bind]
                  rw [ih rest]
                  simp
                · by_cases h8 : c.toNat < 32
                  · rw [show escapeChar c = ['\\', 'u', '0', '0', hexChar (c.toNat / 16),
                        hexChar (c.toNat % 16)] by
                      unfold escapeChar
                      rw [if_neg h1, if_neg h2, if_neg h3, if_neg h4, if_neg h5, if_neg h6,
                        if_neg h7, if_pos h8]]
                    show parseStrChars ('\\' :: 'u' :: '0' :: '0' :: hexChar (c.toNat / 16) ::
                      hexChar (c.toNat % 16) :: (escapeList cs ++ '"' :: rest)) = _
                    unfold parseStrChars
                    simp only [if_neg (show ¬ '\\' = '"' by decide), if_pos rfl]
                    rw [show hexVal '0' = some 0 from rfl]
                    rw [hexVal_hexChar (c.toNat / 16) (by omega),
                      hexVal_hexChar (c.toNat % 16) (by omega)]
                    simp only [Option.some_bind]
                    rw [ih rest]
                    simp only [Option.map_some']
                    rw [show 0 * 4096 + 0 * 256 + c.toNat / 16 * 16 + c.toNat % 16
                        = c.toNat by omega]
                    rw [Char.ofNat_toNat c]
                    simp
                  · rw [show escapeChar c = [c] by
                      unfold escapeChar
                      rw [if_neg h1, if_neg h2, if_neg h3, if_neg h4, if_neg h5, if_neg h6,
                        if_neg h7, if_neg h8]]
                    show parseStrChars (c :: (escapeList cs ++ '"' :: rest)) = _
                    unfold parseStrChars
                    rw [if_neg h1, if_neg h2, if_neg h8]
                    rw [ih rest]
                    simp only [Option.map_some']

theorem digitChar_branch (k : Nat) (h : k < 10) :
    digitChar k ≠ '\x7b' ∧ digitChar k ≠ '[' ∧ digitChar k ≠ '"' ∧ digitChar k ≠ 't' ∧
    digitChar k ≠ 'f' ∧ digitChar k ≠ 'n' ∧ digitChar k ≠ '-' := by
  revert k h
  decide

theorem parseVal_num (fuel : Nat) (n : Int) (rest : List Char)
    (hrest : ∀ c ∈ rest.head?, c.isDigit = false) :
    parseVal (fuel + 1) (intChars n ++ rest) = some (.num n, rest) := by
  by_cases hneg : n < 0
  · rw [show intChars n = '-' :: natDigits n.natAbs by unfold intChars; rw [if_pos hneg]]
    show parseVal (fuel + 1) ('-' :: (natDigits n.natAbs ++ rest)) = _
    unfold parseVal
    rw [skipWs_cons _ _ (by decide)]
    simp only [if_neg (show ¬ '-' = '\x7b' by decide), if_neg (show ¬ '-' = '[' by decide),
      if_neg (show ¬ '-' = '"' by decide), if_neg (show ¬ '-' = 't' by decide),
      if_neg (show ¬ '-' = 'f' by decide), if_neg (show ¬ '-' = 'n' by decide), if_pos rfl]
    rw [parseNatPart_digits n.natAbs rest hrest]
    simp only [Option.map_some']
    rw [show (-(n.natAbs : Int)) = n by
      rw [Int.ofNat_natAbs_of_nonpos (le_of_lt hneg)]
      ring]
    rw [if_pos trivial]
  · rw [show intChars n = natDigits n.natAbs by unfold intChars; rw [if_neg hneg]]
    obtain ⟨k, tail, hk, heq, -⟩ := natDigitsFuel_head (n.natAbs + 1) n.natAbs (by omega)
    have heq' : natDigits n.natAbs = digitChar k :: tail := heq
    obtain ⟨hb1, hb2, hb3, hb4, hb5, hb6, hb7⟩ := digitChar_branch k hk
    obtain ⟨hdig, -, hnws⟩ := digitChar_facts k hk
    rw [heq']
    show parseVal (fuel + 1) (digitChar k :: (tail ++ rest)) = _
    unfold parseVal
    rw [skipWs_cons _ _ hnws]
    simp only [if_neg hb1, if_neg hb2, if_neg hb3, if_neg hb4, if_neg hb5, if_neg hb6,
      if_neg hb7]
    rw [if_pos hdig]
    rw [show digitChar k :: (tail ++ rest) = natDigits n.natAbs ++ rest by rw [heq']; rfl]
    rw [parseNatPart_digits n.natAbs rest hrest]
    simp only [Option.map_some']
    rw [show ((n.natAbs : Int)) = n from Int.natAbs_of_nonneg (le_of_not_lt hneg)]

theorem parseVal_scalar (fuel : Nat) (v : Json) (hv : scalarOk v) (rest : List Char)
    (hrest : ∀ c ∈ rest.head?, c.isDigit = false) :
    parseVal (fuel + 1) (scalarChars v ++ rest) = some (v, rest) := by
  match v with
  | .null =>
    show parseVal (fuel + 1) ('n' :: 'u' :: 'l' :: 'l' :: rest) = _
    unfold parseVal
    rw [skipWs_cons _ _ (by decide)]
    simp
  | .num n => exact parseVal_num fuel n rest hrest
  | .str s =>
    show parseVal (fuel + 1) (('"' :: escapeList s.toList ++ ['"']) ++ rest) = _
    rw [show ('"' :: escapeList s.toList ++ ['"']) ++ rest
        = '"' :: (escapeList s.toList ++ '"' :: rest) by simp]
    unfold parseVal
    rw [skipWs_cons _ _ (by decide)]
    simp only [if_neg (show ¬ '"' = '\x7b' by decide), if_neg (show ¬ '"' = '[' by decide),
      if_pos rfl]
    rw [parseStrChars_escape s.toList rest]
    simp only [Option.map_some']
    rw [if_pos trivial]
    rfl
  | .bool b => exact absurd hv (by cases b <;> simp [scalarOk])
  | .arr es => exact absurd hv (by simp [scalarOk])
  | .obj fs => exact absurd hv (by simp [scalarOk])

theorem parseMembers_quote (fuel : Nat) (cs' : List Char) :
    parseMembers (fuel + 1) ('"' :: cs')
      = (parseStrChars cs').bind fun x =>
        match skipWs x.2 with
        | ':' :: r2 =>
          (parseVal fuel r2).bind fun y =>
            match skipWs y.2 with
            | ',' :: r4 =>
              Option.map (fun z => ((String.mk x.1, y.1) :: z.1, z.2)) (parseMembers fuel r4)
            | '\x7d' :: r4 => some ([(String.mk x.1, y.1)], r4)
            | _ => none
        | _ => none := rfl

theorem parseMembers_chunk (fields : List (String × Json)) (fuel : Nat) (rest : List Char)
    (hne : fields ≠ []) (hok : ∀ kv ∈ fields, scalarOk kv.2)
    (hfuel : fields.length + 1 ≤ fuel) :
    parseMembers fuel (membersChars fields ++ '\x7d' :: rest) = some (fields, rest) := by
  induction fields generalizing fuel rest with
  | nil => exact absurd rfl hne
  | cons kv fs ih =>
    obtain ⟨k, v⟩ := kv
    have hv : scalarOk v := hok (k, v) (by simp)
    obtain ⟨f, rfl⟩ : ∃ f, fuel = f + 1 := ⟨fuel - 1, by simp at hfuel; omega⟩
    obtain ⟨f', rfl⟩ : ∃ f', f = f' + 1 := ⟨f - 1, by simp at hfuel; omega⟩
    rcases fs with _ | ⟨kv2, fs'⟩
    · have hshape : membersChars [(k, v)] ++ '\x7d' :: rest
          = '"' :: (escapeList k.toList ++ '"' :: (':' :: (scalarChars v ++ '\x7d' :: rest))) := by
        simp [membersChars, strLitChars]
      rw [hshape, parseMembers_quote,
        parseStrChars_escape k.toList (':' :: (scalarChars v ++ '\x7d' :: rest))]
      simp only [Option.some_bind]
      rw [skipWs_cons _ _ (by decide)]
      split
      next r2 heq =>
        obtain rfl : scalarChars v ++ '\x7d' :: rest = r2 := by
          simpa using heq
        rw [parseVal_scalar f' v hv ('\x7d' :: rest) (by
          intro c hc
          simp at hc
          subst hc
          decide)]
        simp only [Option.some_bind]
        rw [skipWs_cons _ _ (by decide)]
        split
        next r4 heq2 => simp at heq2
        next r4 heq2 =>
          obtain rfl : rest = r4 := by simpa using heq2
          rfl
        next h1 h2 => exact (h2 rest rfl).elim
      next hmiss => exact (hmiss (scalarChars v ++ '\x7d' :: rest) rfl).elim
    · have hshape : membersChars ((k, v) :: kv2 :: fs') ++ '\x7d' :: rest
          = '"' :: (escapeList k.toList ++ '"' :: (':' :: (scalarChars v ++
              ',' :: (membersChars (kv2 :: fs') ++ '\x7d' :: rest)))) := by
        simp [membersChars, strLitChars]
      rw [hshape, parseMembers_quote,
        parseStrChars_escape k.toList
          (':' :: (scalarChars v ++ ',' :: (membersChars (kv2 :: fs') ++ '\x7d' :: rest)))]
      simp only [Option.some_bind]
      rw [skipWs_cons _ _ (by decide)]
      split
      next r2 heq =>
        obtain rfl : scalarChars v ++ ',' :: (membersChars (kv2 :: fs') ++ '\x7d' :: rest) = r2 := by
          simpa using heq
        rw [parseVal_scalar f' v hv (',' :: (membersChars (kv2 :: fs') ++ '\x7d' :: rest)) (by
          intro c hc
          simp at hc
          subst hc
          decide)]
        simp only [Option.some_bind]
        rw [skipWs_cons _ _ (by decide)]
        split
        next r4 heq2 =>
          obtain rfl : membersChars (kv2 :: fs') ++ '\x7d' :: rest = r4 := by simpa using heq2
          rw [ih (f' + 1) rest (by simp)
            (fun kv hkv => hok kv (List.mem_cons_of_mem _ hkv))
            (by simp at hfuel ⊢; omega)]
          rfl
        next r4 heq2 =>
          exfalso
          have : membersChars (kv2 :: fs') ++ '\x7d' :: rest = '\x7d' :: r4 := by
            simp at heq2
          obtain ⟨k2, v2⟩ := kv2
          rcases fs' with _ | _ <;> simp [membersChars, strLitChars] at this
        next h1 h2 => exact (h1 (membersChars (kv2 :: fs') ++ '\x7d' :: rest) rfl).elim
      next hmiss =>
        exact (hmiss (scalarChars v ++ ',' :: (membersChars (kv2 :: fs') ++ '\x7d' :: rest)) rfl).elim

theorem parseVal_brace (fuel : Nat) (cs' : List Char) :
    parseVal (fuel + 1) ('\x7b' :: cs')
      = (match skipWs cs' with
         | '\x7d' :: rest => some (.obj [], rest)
         | cs'' => (parseMembers fuel cs'').map fun x => (.obj x.1, x.2)) := rfl

theorem membersChars_len (fields : List (String × Json)) :
    fields.length ≤ (membersChars fields).length := by
  induction fields with
  | nil => simp [membersChars]
  | cons kv fs ih =>
    obtain ⟨k, v⟩ := kv
    rcases fs with _ | ⟨kv2, fs'⟩
    · simp [membersChars, strLitChars]
    · show (_ : Nat) + 1 ≤ (strLitChars k ++ ':' :: scalarChars v ++ ',' ::
        membersChars (kv2 :: fs')).length
      simp only [List.length_append, List.length_cons, strLitChars]
      simp only [List.length_cons, List.length_append] at ih ⊢
      omega

theorem membersChars_head (kv : String × Json) (fs : List (String × Json)) :
    ∃ t, membersChars (kv :: fs) = '"' :: t := by
  obtain ⟨k, v⟩ := kv
  rcases fs with _ | ⟨kv2, fs'⟩
  · exact ⟨escapeList k.toList ++ '"' :: ':' :: scalarChars v, by simp [membersChars, strLitChars]⟩
  · exact ⟨escapeList k.toList ++ '"' :: ':' :: scalarChars v
        ++ ',' :: membersChars (kv2 :: fs'),
      by simp [membersChars, strLitChars]⟩

theorem jsonParse_flatObj (fields : List (String × Json))
    (hok : ∀ kv ∈ fields, scalarOk kv.2) :
    jsonParse (String.mk (flatObjChars fields)) = some (.obj fields) := by
  unfold jsonParse
  rw [show (String.mk (flatObjChars fields)).toList = flatObjChars fields from rfl]
  rcases fields with _ | ⟨kv, fs⟩
  · rw [show (flatObjChars []).length = 2 from rfl]
    rw [show flatObjChars [] = '\x7b' :: ['\x7d'] from rfl]
    rw [parseVal_brace]
    rfl
  · have hflat : flatObjChars (kv :: fs)
        = '\x7b' :: (membersChars (kv :: fs) ++ '\x7d' :: []) := rfl
    obtain ⟨len, hlen⟩ : ∃ len, (flatObjChars (kv :: fs)).length = len + 1 :=
      ⟨(flatObjChars (kv :: fs)).length - 1, by rw [hflat]; simp⟩
    rw [hlen, hflat, parseVal_brace]
    obtain ⟨t, ht⟩ := membersChars_head kv fs
    rw [ht]
    rw [show ('"' :: t) ++ '\x7d' :: [] = '"' :: (t ++ '\x7d' :: []) from rfl]
    rw [skipWs_cons _ _ (by decide)]
    split
    next rest heq => simp at heq
    next cs'' heq =>
      rw [← (show ('"' :: t) ++ '\x7d' :: [] = '"' :: (t ++ '\x7d' :: []) from rfl), ← ht]
      rw [parseMembers_chunk (kv :: fs) (len + 1) [] (by simp) hok (by
        have h1 := membersChars_len (kv :: fs)
        have h2 : (flatObjChars (kv :: fs)).length
            = (membersChars (kv :: fs)).length + 2 := by
          rw [hflat]
          simp
        omega)]
      rfl

theorem hexChar_mod (n : Nat) : hexChar n = hexChar (n % 16) := by
  unfold hexChar
  rw [Nat.mod_mod_of_dvd n (by norm_num)]

theorem hexChar_latin1 (n : Nat) : (hexChar n).toNat ≤ 255 := by
  rw [hexChar_mod]
  have h : n % 16 < 16 := Nat.mod_lt n (by norm_num)
  revert h
  generalize n % 16 = k
  revert k
  decide

theorem digitChar_latin1 (n : Nat) : (digitChar n).toNat ≤ 255 := by
  rw [digitChar_mod]
  have h : n % 10 < 10 := Nat.mod_lt n (by norm_num)
  revert h
  generalize n % 10 = k
  revert k
  decide

theorem escapeChar_latin1 (c : Char) (h : c.toNat ≤ 255) :
    ∀ x ∈ escapeChar c, x.toNat ≤ 255 := by
  intro x hx
  unfold escapeChar at hx
  split_ifs at hx
  all_goals fin_cases hx
  all_goals first | decide | exact hexChar_latin1 _ | exact h

theorem escapeList_latin1 (cs : List Char) (h : ∀ c ∈ cs, c.toNat ≤ 255) :
    ∀ x ∈ escapeList cs, x.toNat ≤ 255 := by
  induction cs with
  | nil => intro x hx; simp [escapeList] at hx
  | cons c cs ih =>
    intro x hx
    rw [show escapeList (c :: cs) = escapeChar c ++ escapeList cs from rfl,
      List.mem_append] at hx
    rcases hx with hx | hx
    · exact escapeChar_latin1 c (h c (by simp)) x hx
    · exact ih (fun d hd => h d (by simp [hd])) x hx

theorem intChars_latin1 (n : Int) : ∀ x ∈ intChars n, x.toNat ≤ 255 := by
  intro x hx
  unfold intChars at hx
  have hdig : ∀ y ∈ natDigits n.natAbs, y.toNat ≤ 255 := by
    intro y hy
    obtain ⟨k, -, rfl⟩ := natDigitsFuel_chars (n.natAbs + 1) n.natAbs y hy
    exact digitChar_latin1 k
  split_ifs at hx
  · rcases List.mem_cons.mp hx with hx | hx
    · subst hx
      decide
    · exact hdig x hx
  · exact hdig x hx

theorem strLitChars_latin1 (s : String) (h : ∀ c ∈ s.toList, c.toNat ≤ 255) :
    ∀ x ∈ strLitChars s, x.toNat ≤ 255 := by
  intro x hx
  unfold strLitChars at hx
  rcases List.mem_cons.mp hx with hx | hx
  · subst hx
    decide
  · rcases List.mem_append.mp hx with hx | hx
    · exact escapeList_latin1 s.toList h x hx
    · simp at hx
      subst hx
      decide

theorem scalarChars_latin1 (v : Json) (hok : scalarOk v) (hl : scalarLatin1 v) :
    ∀ x ∈ scalarChars v, x.toNat ≤ 255 := by
  intro x hx
  match v with
  | .null => fin_cases hx <;> decide
  | .num n => exact intChars_latin1 n x hx
  | .str s => exact strLitChars_latin1 s hl x hx
  | .bool b => exact absurd hok (by cases b <;> simp [scalarOk])
  | .arr es => exact absurd hok (by simp [scalarOk])
  | .obj fs => exact absurd hok (by simp [scalarOk])

theorem membersChars_latin1 (fields : List (String × Json))
    (hok : ∀ kv ∈ fields, scalarOk kv.2)
    (hl : ∀ kv ∈ fields, (∀ c ∈ kv.1.toList, c.toNat ≤ 255) ∧ scalarLatin1 kv.2) :
    ∀ x ∈ membersChars fields, x.toNat ≤ 255 := by
  induction fields with
  | nil => intro x hx; simp [membersChars] at hx
  | cons kv fs ih =>
    obtain ⟨k, v⟩ := kv
    have hkv := hl (k, v) (by simp)
    have hvok := hok (k, v) (by simp)
    intro x hx
    rcases fs with _ | ⟨kv2, fs'⟩
    · rw [show membersChars [(k, v)] = strLitChars k ++ ':' :: scalarChars v from rfl] at hx
      rcases List.mem_append.mp hx with hx | hx
      · exact strLitChars_latin1 k hkv.1 x hx
      · rcases List.mem_cons.mp hx with hx | hx
        · subst hx; decide
        · exact scalarChars_latin1 v hvok hkv.2 x hx
    · rw [show membersChars ((k, v) :: kv2 :: fs')
          = strLitChars k ++ ':' :: scalarChars v ++ ',' :: membersChars (kv2 :: fs')
          from rfl] at hx
      rcases List.mem_append.mp hx with hx | hx
      · rcases List.mem_append.mp hx with hx | hx
        · exact strLitChars_latin1 k hkv.1 x hx
        · rcases List.mem_cons.mp hx with hx | hx
          · subst hx; decide
          · exact scalarChars_latin1 v hvok hkv.2 x hx
      · rcases List.mem_cons.mp hx with hx | hx
        · subst hx; decide
        · exact ih (fun kv h => hok kv (List.mem_cons_of_mem _ h))
            (fun kv h => hl kv (List.mem_cons_of_mem _ h)) x hx

theorem flatObjChars_latin1 (fields : List (String × Json))
    (hok : ∀ kv ∈ fields, scalarOk kv.2)
    (hl : ∀ kv ∈ fields, (∀ c ∈ kv.1.toList, c.toNat ≤ 255) ∧ scalarLatin1 kv.2) :
    ∀ x ∈ flatObjChars fields, x.toNat ≤ 255 := by
  intro x hx
  unfold flatObjChars at hx
  rcases List.mem_cons.mp hx with hx | hx
  · subst hx; decide
  · rcases List.mem_append.mp hx with hx | hx
    · exact membersChars_latin1 fields hok hl x hx
    · simp at hx
      subst hx
      decide

/-- The codec round-trip at the level of flat cursor objects: when the
fields are scalar and latin1, `encodeCursorJson` succeeds and
`decodeCursor` recovers exactly the serialized object. -/
theorem decode_encodeCursorJson (fields : List (String × Json))
    (hok : ∀ kv ∈ fields, scalarOk kv.2)
    (hl : ∀ kv ∈ fields, (∀ c ∈ kv.1.toList, c.toNat ≤ 255) ∧ scalarLatin1 kv.2) :
    ∃ tok, encodeCursorJson fields = some tok ∧ decodeCursor tok = some (.obj fields) := by
  have hall : (String.mk (flatObjChars fields)).toList.all (fun c => c.toNat ≤ 255) = true := by
    rw [List.all_eq_true]
    intro c hc
    simpa using flatObjChars_latin1 fields hok hl c hc
  refine ⟨String.mk (b64EncodeBytes ((flatObjChars fields).map Char.toNat)), ?_, ?_⟩
  · unfold encodeCursorJson btoa
    rw [if_pos hall]
    rfl
  · have henc : btoa (String.mk (flatObjChars fields))
        = some (String.mk (b64EncodeBytes ((flatObjChars fields).map Char.toNat))) := by
      unfold btoa
      rw [if_pos hall]
      rfl
    unfold decodeCursor
    rw [atob_btoa _ _ henc]
    simp only [Option.some_bind]
    exact jsonParse_flatObj fields hok

theorem cursorFields_ok (c : PaginationCursor) :
    ∀ kv ∈ cursorFields c, scalarOk kv.2 := by
  rcases c with ⟨pn, ps, pk, ti⟩
  intro kv hkv
  rcases pk with _ | pk <;> rcases ti with _ | ti
  · rw [show cursorFields ⟨pn, ps, none, none⟩
        = [("pageNo", Json.num pn), ("pageSize", Json.num ps)] from rfl] at hkv
    fin_cases hkv <;> trivial
  · rw [show cursorFields ⟨pn, ps, none, some ti⟩
        = [("pageNo", Json.num pn), ("pageSize", Json.num ps),
           ("totalItems", Json.num ti)] from rfl] at hkv
    fin_cases hkv <;> trivial
  · rw [show cursorFields ⟨pn, ps, some pk, none⟩
        = [("pageNo", Json.num pn), ("pageSize", Json.num ps),
           ("productKey", Json.str pk)] from rfl] at hkv
    fin_cases hkv <;> trivial
  · rw [show cursorFields ⟨pn, ps, some pk, some ti⟩
        = [("pageNo", Json.num pn), ("pageSize", Json.num ps),
           ("productKey", Json.str pk), ("totalItems", Json.num ti)] from rfl] at hkv
    fin_cases hkv <;> trivial

theorem keyLatin1_pageNo : ∀ ch ∈ ("pageNo" : String).toList, ch.toNat ≤ 255 := by decide

theorem keyLatin1_pageSize : ∀ ch ∈ ("pageSize" : String).toList, ch.toNat ≤ 255 := by decide

theorem keyLatin1_productKey : ∀ ch ∈ ("productKey" : String).toList, ch.toNat ≤ 255 := by
  decide

theorem keyLatin1_totalItems : ∀ ch ∈ ("totalItems" : String).toList, ch.toNat ≤ 255 := by
  decide

theorem cursorFields_latin1 (c : PaginationCursor)
    (hpk : ∀ pk, c.productKey = some pk → ∀ ch ∈ pk.toList, ch.toNat ≤ 255) :
    ∀ kv ∈ cursorFields c, (∀ ch ∈ kv.1.toList, ch.toNat ≤ 255) ∧ scalarLatin1 kv.2 := by
  rcases c with ⟨pn, ps, pk, ti⟩
  intro kv hkv
  rcases pk with _ | pk <;> rcases ti with _ | ti
  · rw [show cursorFields ⟨pn, ps, none, none⟩
        = [("pageNo", Json.num pn), ("pageSize", Json.num ps)] from rfl] at hkv
    fin_cases hkv
    · exact ⟨keyLatin1_pageNo, trivial⟩
    · exact ⟨keyLatin1_pageSize, trivial⟩
  · rw [show cursorFields ⟨pn, ps, none, some ti⟩
        = [("pageNo", Json.num pn), ("pageSize", Json.num ps),
           ("totalItems", Json.num ti)] from rfl] at hkv
    fin_cases hkv
    · exact ⟨keyLatin1_pageNo, trivial⟩
    · exact ⟨keyLatin1_pageSize, trivial⟩
    · exact ⟨keyLatin1_totalItems, trivial⟩
  · rw [show cursorFields ⟨pn, ps, some pk, none⟩
        = [("pageNo", Json.num pn), ("pageSize", Json.num ps),
           ("productKey", Json.str pk)] from rfl] at hkv
    fin_cases hkv
    · exact ⟨keyLatin1_pageNo, trivial⟩
    · exact ⟨keyLatin1_pageSize, trivial⟩
    · exact ⟨keyLatin1_productKey, fun ch hch => hpk pk rfl ch hch⟩
  · rw [show cursorFields ⟨pn, ps, some pk, some ti⟩
        = [("pageNo", Json.num pn), ("pageSize", Json.num ps),
           ("productKey", Json.str pk), ("totalItems", Json.num ti)] from rfl] at hkv
    fin_cases hkv
    · exact ⟨keyLatin1_pageNo, trivial⟩
    · exact ⟨keyLatin1_pageSize, trivial⟩
    · exact ⟨keyLatin1_productKey, fun ch hch => hpk pk rfl ch hch⟩
    · exact ⟨keyLatin1_totalItems, trivial⟩

theorem cursorToJson_inj (c1 c2 : PaginationCursor)
    (h : cursorToJson c1 = cursorToJson c2) : c1 = c2 := by
  rcases c1 with ⟨pn1, ps1, pk1, ti1⟩
  rcases c2 with ⟨pn2, ps2, pk2, ti2⟩
  rcases pk1 with _ | pk1 <;> rcases ti1 with _ | ti1 <;>
    rcases pk2 with _ | pk2 <;> rcases ti2 with _ | ti2 <;>
    simp_all [cursorToJson, cursorFields]

/-- The cursor-level round-trip: for latin1 product keys, `encodeCursor`
succeeds and `decodeCursor` returns exactly the cursor's JSON object. -/
theorem encodeCursor_roundtrip (c : PaginationCursor)
    (hpk : ∀ pk, c.productKey = some pk → ∀ ch ∈ pk.toList, ch.toNat ≤ 255) :
    ∃ tok, encodeCursor c = some tok ∧ decodeCursor tok = some (cursorToJson c) :=
  decode_encodeCursorJson (cursorFields c) (cursorFields_ok c) (cursorFields_latin1 c hpk)

theorem listProductsPaginated_eq {α : Type} (w : UpstreamWorld α) (cursor : Option String)
    (d : Int) :
    listProductsPaginated w cursor d
      = match productsCallParams cursor d with
        | none => cursorReject α
        | some ps => productsCore w ps.1 ps.2 := by
  rcases cursor with _ | tok
  · rfl
  · rcases hd : decodeCursor tok with _ | j
    · simp only [listProductsPaginated, productsCallParams, hd]
    · rcases j with _ | b | n | s | es | fs <;>
        simp only [listProductsPaginated, productsCallParams, hd]

theorem listDevicesPaginated_eq {α : Type} (w : UpstreamWorld α) (productKey : String)
    (cursor : Option String) (d : Int) :
    listDevicesPaginated w productKey cursor d
      = match devicesCallParams productKey cursor d with
        | none => cursorReject α
        | some ps => devicesCore w productKey ps.1 ps.2 := by
  rcases cursor with _ | tok
  · rfl
  · rcases hd : decodeCursor tok with _ | j
    · simp only [listDevicesPaginated, devicesCallParams, hd]
    · rcases j with _ | b | n | s | es | fs <;>
        simp only [listDevicesPaginated, devicesCallParams, hd] <;>
        try (split_ifs <;> rfl)

theorem jsField_cursor_pageNo (c : PaginationCursor) :
    jsField (Json.obj (cursorFields c)) "pageNo" = some (Json.num c.pageNo) := by
  rcases c with ⟨pn, ps, pk, ti⟩
  rcases pk with _ | pk <;> rcases ti with _ | ti <;> rfl

theorem jsField_cursor_pageSize (c : PaginationCursor) :
    jsField (Json.obj (cursorFields c)) "pageSize" = some (Json.num c.pageSize) := by
  rcases c with ⟨pn, ps, pk, ti⟩
  rcases pk with _ | pk <;> rcases ti with _ | ti <;> rfl

theorem jsField_cursor_productKey (c : PaginationCursor) :
    jsField (Json.obj (cursorFields c)) "productKey" = c.productKey.map Json.str := by
  rcases c with ⟨pn, ps, pk, ti⟩
  rcases pk with _ | pk <;> rcases ti with _ | ti <;> rfl

theorem productsCore_full {α : Type} (w : UpstreamWorld α) (p s : Int)
    (data : Option (List α)) (htok : w.tokenOk = true)
    (hpage : w.page (some p) (some s) = .response true (some 200) data)
    (hfull : ((data.getD []).length : Int) = s) :
    productsCore w (some p) (some s)
      = ⟨.ok (data.getD [],
          match w.page (some (p + 1)) (some s) with
          | .response true (some 200) (some d) =>
            if 0 < d.length then
              encodeCursorJson
                [("pageNo", jsNumJson (some (p + 1))), ("pageSize", jsNumJson (some s))]
            else none
          | _ => none),
        true, [(some p, some s), (some (p + 1), some s)]⟩ := by
  unfold productsCore
  rw [htok, hpage]
  rw [if_neg (by simp)]
  dsimp only []
  rw [if_neg (by simp)]
  rw [if_neg (by simp)]
  rw [if_pos (by rw [← hfull])]
  simp only [Option.map_some']

theorem productsCore_short {α : Type} (w : UpstreamWorld α) (p s : Int)
    (data : Option (List α)) (htok : w.tokenOk = true)
    (hpage : w.page (some p) (some s) = .response true (some 200) data)
    (hshort : ((data.getD []).length : Int) ≠ s) :
    productsCore w (some p) (some s)
      = ⟨.ok (data.getD [], none), true, [(some p, some s)]⟩ := by
  unfold productsCore
  rw [htok, hpage]
  rw [if_neg (by simp)]
  dsimp only []
  rw [if_neg (by simp)]
  rw [if_neg (by simp)]
  rw [if_neg (by
    simp only [Option.some.injEq]
    exact fun h => hshort h.symm)]

theorem devicesCore_full {α : Type} (w : UpstreamWorld α) (productKey : String)
    (p s : Int) (code : Option Int) (data : Option (List α)) (htok : w.tokenOk = true)
    (hpage : w.page (some p) (some s) = .response true code data)
    (hfull : ((data.getD []).length : Int) = s) :
    devicesCore w productKey (some p) (some s)
      = ⟨.ok (data.getD [],
          match w.page (some (p + 1)) (some s) with
          | .response true _ (some d) =>
            if 0 < d.length then
              encodeCursorJson
                [("pageNo", jsNumJson (some (p + 1))), ("pageSize", jsNumJson (some s)),
                 ("productKey", Json.str productKey)]
            else none
          | _ => none),
        true, [(some p, some s), (some (p + 1), some s)]⟩ := by
  unfold devicesCore
  rw [htok, hpage]
  rw [if_neg (by simp)]
  dsimp only []
  rw [if_neg (by simp)]
  rw [if_pos (by rw [← hfull])]
  simp only [Option.map_some']

theorem devicesCore_short {α : Type} (w : UpstreamWorld α) (productKey : String)
    (p s : Int) (code : Option Int) (data : Option (List α)) (htok : w.tokenOk = true)
    (hpage : w.page (some p) (some s) = .response true code data)
    (hshort : ((data.getD []).length : Int) ≠ s) :
    devicesCore w productKey (some p) (some s)
      = ⟨.ok (data.getD [], none), true, [(some p, some s)]⟩ := by
  unfold devicesCore
  rw [htok, hpage]
  rw [if_neg (by simp)]
  dsimp only []
  rw [if_neg (by simp)]
  rw [if_neg (by
    simp only [Option.some.injEq]
    exact fun h => hshort h.symm)]

theorem productsCore_fail {α : Type} (w : UpstreamWorld α) (p? s? : Option Int) :
    (w.tokenOk = false → productsCore w p? s? = ⟨.error .fetchFailed, true, []⟩) ∧
    (w.tokenOk = true → w.page p? s? = .thrown →
      productsCore w p? s? = ⟨.error .fetchFailed, true, [(p?, s?)]⟩) ∧
    (∀ code data, w.tokenOk = true → w.page p? s? = .response false code data →
      productsCore w p? s? = ⟨.error .fetchFailed, true, [(p?, s?)]⟩) ∧
    (∀ code data, w.tokenOk = true → w.page p? s? = .response true code data →
      code ≠ some 200 →
      productsCore w p? s? = ⟨.error .fetchFailed, true, [(p?, s?)]⟩) := by
  refine ⟨?_, ?_, ?_, ?_⟩
  · intro htok
    unfold productsCore
    rw [htok, if_pos rfl]
  · intro htok hpage
    unfold productsCore
    rw [htok, hpage, if_neg (by simp)]
  · intro code data htok hpage
    unfold productsCore
    rw [htok, hpage, if_neg (by simp)]
    dsimp only []
    rw [if_pos rfl]
  · intro code data htok hpage hcode
    unfold productsCore
    rw [htok, hpage, if_neg (by simp)]
    dsimp only []
    rw [if_neg (by simp), if_pos hcode]

theorem devicesCore_fail {α : Type} (w : UpstreamWorld α) (productKey : String)
    (p? s? : Option Int) :
    (w.tokenOk = false →
      devicesCore w productKey p? s? = ⟨.error .fetchFailed, true, []⟩) ∧
    (w.tokenOk = true → w.page p? s? = .thrown →
      devicesCore w productKey p? s? = ⟨.error .fetchFailed, true, [(p?, s?)]⟩) ∧
    (∀ code data, w.tokenOk = true → w.page p? s? = .response false code data →
      devicesCore w productKey p? s? = ⟨.error .fetchFailed, true, [(p?, s?)]⟩) := by
  refine ⟨?_, ?_, ?_⟩
  · intro htok
    unfold devicesCore
    rw [htok, if_pos rfl]
  · intro htok hpage
    unfold devicesCore
    rw [htok, hpage, if_neg (by simp)]
  · intro code data htok hpage
    unfold devicesCore
    rw [htok, hpage, if_neg (by simp)]
    dsimp only []
    rw [if_pos rfl]

theorem devicesCore_ok {α : Type} (w : UpstreamWorld α) (productKey : String)
    (p? s? : Option Int) (code : Option Int) (data : Option (List α))
    (htok : w.tokenOk = true) (hpage : w.page p? s? = .response true code data) :
    ∃ nc, (devicesCore w productKey p? s?).result = .ok (data.getD [], nc) := by
  unfold devicesCore
  rw [htok, hpage, if_neg (by simp)]
  dsimp only []
  rw [if_neg (by simp)]
  split
  · exact ⟨_, rfl⟩
  · exact ⟨none, rfl⟩

/-- C6: if the supplied cursor token fails to decode, both paginated
listings throw `Invalid cursor provided` with no token acquisition and no
upstream fetch (the trace is empty — in particular no fallback fetch of
page 1 happens). -/
theorem C6_decode_failure_fail_fast (α : Type) (w : UpstreamWorld α) (tok : String)
    (d : Int) (hdec : decodeCursor tok = none) :
    listProductsPaginated w (some tok) d
        = ⟨.error .invalidCursor, false, []⟩ ∧
    ∀ productKey, listDevicesPaginated w productKey (some tok) d
        = ⟨.error .invalidCursor, false, []⟩ := by
  constructor
  · rw [listProductsPaginated_eq]
    simp only [productsCallParams, hdec]
    rfl
  · intro pk
    rw [listDevicesPaginated_eq]
    simp only [devicesCallParams, hdec]
    rfl

theorem C6_witness :
    decodeCursor "###" = none ∧
    listProductsPaginated (⟨true, fun _ _ => FetchOutcome.thrown⟩ : UpstreamWorld Nat)
        (some "###") 15 = ⟨.error .invalidCursor, false, []⟩ ∧
    listDevicesPaginated (⟨true, fun _ _ => FetchOutcome.thrown⟩ : UpstreamWorld Nat)
        "P" (some "###") 15 = ⟨.error .invalidCursor, false, []⟩ := by
  have h := C6_decode_failure_fail_fast Nat
    ⟨true, fun _ _ => FetchOutcome.thrown⟩ "###" 15 rfl
  exact ⟨rfl, h.1, h.2 "P"⟩

/-- C5: when the primary fetch succeeds with a full page but the lookahead
fetch fails (thrown, or a non-`ok` response), both paginated listings still
succeed with the primary page's items and no successor cursor; the trace
shows the lookahead was attempted but its failure never propagates. -/
theorem C5_lookahead_failure_swallowed (α : Type) (w : UpstreamWorld α)
    (cursor : Option String) (d p s : Int) (data : Option (List α))
    (htok : w.tokenOk = true)
    (hla : w.page (some (p + 1)) (some s) = .thrown ∨
      ∃ code dat, w.page (some (p + 1)) (some s) = .response false code dat) :
    (productsCallParams cursor d = some (some p, some s) →
      w.page (some p) (some s) = .response true (some 200) data →
      ((data.getD []).length : Int) = s →
      listProductsPaginated w cursor d
        = ⟨.ok (data.getD [], none), true, [(some p, some s), (some (p + 1), some s)]⟩) ∧
    (∀ productKey code, devicesCallParams productKey cursor d = some (some p, some s) →
      w.page (some p) (some s) = .response true code data →
      ((data.getD []).length : Int) = s →
      listDevicesPaginated w productKey cursor d
        = ⟨.ok (data.getD [], none), true, [(some p, some s), (some (p + 1), some s)]⟩) := by
  constructor
  · intro hparam hpage hfull
    rw [listProductsPaginated_eq, hparam]
    dsimp only []
    rw [productsCore_full w p s data htok hpage hfull]
    rcases hla with h | ⟨code', dat', h⟩ <;> rw [h]
  · intro pk code hparam hpage hfull
    rw [listDevicesPaginated_eq, hparam]
    dsimp only []
    rw [devicesCore_full w pk p s code data htok hpage hfull]
    rcases hla with h | ⟨code', dat', h⟩ <;> rw [h]

theorem C5_witness :
    listProductsPaginated
        (⟨true, fun pn _ => if pn = some 1 then .response true (some 200) (some [5]) else .thrown⟩
          : UpstreamWorld Nat) none 1
      = ⟨.ok ([5], none), true, [(some 1, some 1), (some 2, some 1)]⟩ ∧
    listDevicesPaginated
        (⟨true, fun pn _ => if pn = some 1 then .response true (some 200) (some [5]) else .thrown⟩
          : UpstreamWorld Nat) "P" none 1
      = ⟨.ok ([5], none), true, [(some 1, some 1), (some 2, some 1)]⟩ := by
  have h := C5_lookahead_failure_swallowed Nat
    ⟨true, fun pn _ => if pn = some 1 then .response true (some 200) (some [5]) else .thrown⟩
    none 1 1 1 (some [5]) rfl (Or.inl rfl)
  exact ⟨h.1 rfl rfl (by decide), h.2 "P" (some 200) rfl rfl (by decide)⟩

/-- C7 (amended): a failed primary fetch fails the whole operation for the
products listing in all three modes (thrown fetch, non-`ok` response,
business code ≠ 200); the devices listing fails on a thrown fetch or a
non-`ok` response, but never inspects the business code of its primary
response — a body with code ≠ 200 is returned as a successful page. -/
theorem C7_primary_fetch_failure (α : Type) (w : UpstreamWorld α) (cursor : Option String)
    (d : Int) (p? s? : Option Int) :
    (productsCallParams cursor d = some (p?, s?) → w.tokenOk = true →
      ((w.page p? s? = .thrown →
          (listProductsPaginated w cursor d).result = .error .fetchFailed) ∧
       (∀ code data, w.page p? s? = .response false code data →
          (listProductsPaginated w cursor d).result = .error .fetchFailed) ∧
       (∀ code data, w.page p? s? = .response true code data → code ≠ some 200 →
          (listProductsPaginated w cursor d).result = .error .fetchFailed))) ∧
    (∀ productKey, devicesCallParams productKey cursor d = some (p?, s?) →
      w.tokenOk = true →
      ((w.page p? s? = .thrown →
          (listDevicesPaginated w productKey cursor d).result = .error .fetchFailed) ∧
       (∀ code data, w.page p? s? = .response false code data →
          (listDevicesPaginated w productKey cursor d).result = .error .fetchFailed) ∧
       (∀ code data, w.page p? s? = .response true code data →
          ∃ nc, (listDevicesPaginated w productKey cursor d).result
            = .ok (data.getD [], nc)))) := by
  constructor
  · intro hparam htok
    rw [listProductsPaginated_eq, hparam]
    dsimp only []
    refine ⟨?_, ?_, ?_⟩
    · intro hpage
      rw [(productsCore_fail w p? s?).2.1 htok hpage]
    · intro code data hpage
      rw [(productsCore_fail w p? s?).2.2.1 code data htok hpage]
    · intro code data hpage hcode
      rw [(productsCore_fail w p? s?).2.2.2 code data htok hpage hcode]
  · intro pk hparam htok
    rw [listDevicesPaginated_eq, hparam]
    dsimp only []
    refine ⟨?_, ?_, ?_⟩
    · intro hpage
      rw [(devicesCore_fail w pk p? s?).2.1 htok hpage]
    · intro code data hpage
      rw [(devicesCore_fail w pk p? s?).2.2 code data htok hpage]
    · intro code data hpage
      exact devicesCore_ok w pk p? s? code data htok hpage

/-- C7 counterexample: a devices primary response that is HTTP-`ok` but
carries business code 500 is not treated as a failure — the call succeeds
with an empty page, where the claim demands `UpstreamFetchFailed`. -/
theorem C7_counterexample :
    (listDevicesPaginated
        (⟨true, fun _ _ => .response true (some 500) none⟩ : UpstreamWorld Nat)
        "P" none 15).result = .ok ([], none) := rfl

theorem C7_witness :
    (listProductsPaginated (⟨true, fun _ _ => FetchOutcome.thrown⟩ : UpstreamWorld Nat)
        none 15).result = .error .fetchFailed ∧
    (listProductsPaginated (⟨true, fun _ _ => .response false none none⟩ : UpstreamWorld Nat)
        none 15).result = .error .fetchFailed ∧
    (listProductsPaginated (⟨true, fun _ _ => .response true (some 500) none⟩ : UpstreamWorld Nat)
        none 15).result = .error .fetchFailed ∧
    (listDevicesPaginated (⟨true, fun _ _ => FetchOutcome.thrown⟩ : UpstreamWorld Nat)
        "P" none 15).result = .error .fetchFailed := by
  refine ⟨?_, ?_, ?_, ?_⟩
  · exact ((C7_primary_fetch_failure Nat ⟨true, fun _ _ => FetchOutcome.thrown⟩
      none 15 (some 1) (some 15)).1 rfl rfl).1 rfl
  · exact ((C7_primary_fetch_failure Nat ⟨true, fun _ _ => .response false none none⟩
      none 15 (some 1) (some 15)).1 rfl rfl).2.1 none none rfl
  · exact ((C7_primary_fetch_failure Nat ⟨true, fun _ _ => .response true (some 500) none⟩
      none 15 (some 1) (some 15)).1 rfl rfl).2.2 (some 500) none rfl (by decide)
  · exact (((C7_primary_fetch_failure Nat ⟨true, fun _ _ => FetchOutcome.thrown⟩
      none 15 (some 1) (some 15)).2 "P" rfl rfl).1) rfl

theorem productsCallParams_cursor (tok : String) (d : Int) (c : PaginationCursor)
    (hdec : decodeCursor tok = some (cursorToJson c)) :
    productsCallParams (some tok) d = some (some c.pageNo, some c.pageSize) := by
  simp only [productsCallParams, hdec, cursorToJson]
  rw [jsField_cursor_pageNo, jsField_cursor_pageSize]
  rfl

theorem devicesCallParams_cursor (B : String) (tok : String) (d : Int)
    (c : PaginationCursor) (hdec : decodeCursor tok = some (cursorToJson c)) :
    devicesCallParams B (some tok) d
      = if jsTruthy (c.productKey.map Json.str)
            && ! jsStrEq (c.productKey.map Json.str) B
        then none
        else some (some c.pageNo, some c.pageSize) := by
  simp only [devicesCallParams, hdec, cursorToJson]
  rw [jsField_cursor_pageNo, jsField_cursor_pageSize, jsField_cursor_productKey]
  rfl

/-- C2 (amended): a cursor stamped with a nonempty product key `A` is
rejected by `listDevicesPaginated` when redeemed against `B ≠ A`, but with
the same generic `Invalid cursor provided` error a malformed token
produces — the internal `Product key mismatch with cursor` throw is
swallowed by the decode `catch`, so no distinct `CursorScopeMismatch`
error reaches the caller; a cursor stamped `A` redeemed against `A`
passes the scope check and proceeds to the fetch at the cursor's
position. -/
theorem C2_scope_mismatch_generic_error (α : Type) (w : UpstreamWorld α) (d : Int)
    (c : PaginationCursor) (A tok : String)
    (hA : c.productKey = some A) (hA0 : A ≠ "")
    (hlat : ∀ ch ∈ A.toList, ch.toNat ≤ 255)
    (henc : encodeCursor c = some tok) :
    (∀ B, B ≠ A →
      listDevicesPaginated w B (some tok) d = ⟨.error .invalidCursor, false, []⟩ ∧
      listDevicesPaginated w B (some tok) d
        = listDevicesPaginated w B (some "not-base64!") d) ∧
    listDevicesPaginated w A (some tok) d
      = devicesCore w A (some c.pageNo) (some c.pageSize) := by
  obtain ⟨tok0, henc0, hdec0⟩ := encodeCursor_roundtrip c (by
    intro pk hpk ch hch
    rw [hA] at hpk
    injection hpk with h
    subst h
    exact hlat ch hch)
  have htok : tok = tok0 := by
    rw [henc] at henc0
    injection henc0
  subst htok
  have hmap : c.productKey.map Json.str = some (Json.str A) := by rw [hA]; rfl
  constructor
  · intro B hB
    have hreject : devicesCallParams B (some tok) d = none := by
      rw [devicesCallParams_cursor B tok d c hdec0, hmap]
      rw [if_pos (by
        show (jsTruthy (some (Json.str A)) && ! jsStrEq (some (Json.str A)) B) = true
        rw [show jsTruthy (some (Json.str A)) = decide (A ≠ "") from rfl,
          show jsStrEq (some (Json.str A)) B = decide (A = B) from rfl,
          decide_eq_true hA0, decide_eq_false (fun h => hB h.symm)]
        rfl)]
    constructor
    · rw [listDevicesPaginated_eq, hreject]
      rfl
    · rw [listDevicesPaginated_eq, hreject, listDevicesPaginated_eq]
      rw [show devicesCallParams B (some "not-base64!") d = none by
        simp only [devicesCallParams]
        rw [show decodeCursor "not-base64!" = none from rfl]]
  · have haccept : devicesCallParams A (some tok) d = some (some c.pageNo, some c.pageSize) := by
      rw [devicesCallParams_cursor A tok d c hdec0, hmap]
      rw [if_neg (by
        show ¬(jsTruthy (some (Json.str A)) && ! jsStrEq (some (Json.str A)) A) = true
        rw [show jsStrEq (some (Json.str A)) A = decide (A = A) from rfl]
        simp)]
    rw [listDevicesPaginated_eq, haccept]

/-- C2 counterexample: redeeming a cursor minted for product key `A`
against product key `B` produces a `PagerResult` identical to that of a
malformed token — the scope mismatch is not distinguishable by the
caller, contradicting the claimed distinct `CursorScopeMismatch`
error. -/
theorem C2_counterexample :
    encodeCursor ⟨2, 15, some "A", none⟩
        = some "eyJwYWdlTm8iOjIsInBhZ2VTaXplIjoxNSwicHJvZHVjdEtleSI6IkEifQ==" ∧
    listDevicesPaginated (⟨true, fun _ _ => FetchOutcome.thrown⟩ : UpstreamWorld Nat)
        "B" (some "eyJwYWdlTm8iOjIsInBhZ2VTaXplIjoxNSwicHJvZHVjdEtleSI6IkEifQ==") 15
      = ⟨.error .invalidCursor, false, []⟩ ∧
    listDevicesPaginated (⟨true, fun _ _ => FetchOutcome.thrown⟩ : UpstreamWorld Nat)
        "B" (some "eyJwYWdlTm8iOjIsInBhZ2VTaXplIjoxNSwicHJvZHVjdEtleSI6IkEifQ==") 15
      = listDevicesPaginated (⟨true, fun _ _ => FetchOutcome.thrown⟩ : UpstreamWorld Nat)
        "B" (some "!!!") 15 :=
  ⟨rfl, rfl, rfl⟩

theorem C2_witness :
    listDevicesPaginated (⟨true, fun _ _ => FetchOutcome.thrown⟩ : UpstreamWorld Nat)
        "B2" (some "eyJwYWdlTm8iOjIsInBhZ2VTaXplIjoxNSwicHJvZHVjdEtleSI6IkEifQ==") 15
      = ⟨.error .invalidCursor, false, []⟩ ∧
    listDevicesPaginated (⟨true, fun _ _ => FetchOutcome.thrown⟩ : UpstreamWorld Nat)
        "A" (some "eyJwYWdlTm8iOjIsInBhZ2VTaXplIjoxNSwicHJvZHVjdEtleSI6IkEifQ==") 15
      = devicesCore (⟨true, fun _ _ => FetchOutcome.thrown⟩ : UpstreamWorld Nat)
          "A" (some 2) (some 15) := by
  have h := C2_scope_mismatch_generic_error Nat ⟨true, fun _ _ => FetchOutcome.thrown⟩
    15 ⟨2, 15, some "A", none⟩ "A"
    "eyJwYWdlTm8iOjIsInBhZ2VTaXplIjoxNSwicHJvZHVjdEtleSI6IkEifQ=="
    rfl (by decide) (by decide) (by decide)
  exact ⟨(h.1 "B2" (by decide)).1, h.2⟩

/-- C8 (amended): the scope guard of `listDevicesPaginated` only rejects
cursors whose decoded `productKey` field is truthy and differs from the
call's product key.  A cursor carrying no scope field at all — such as one
minted by the unscoped products listing — is silently accepted and
redeemed against the supplied product key at the cursor's position,
rather than being rejected as a validation error. -/
theorem C8_unscoped_cursor_accepted (α : Type) (w : UpstreamWorld α) (P : String)
    (d : Int) (c : PaginationCursor) (tok : String)
    (hnopk : c.productKey = none) (henc : encodeCursor c = some tok) :
    listDevicesPaginated w P (some tok) d
      = devicesCore w P (some c.pageNo) (some c.pageSize) := by
  obtain ⟨tok0, henc0, hdec0⟩ := encodeCursor_roundtrip c (by
    intro pk hpk
    rw [hnopk] at hpk
    exact absurd hpk (by simp))
  have htok : tok = tok0 := by
    rw [henc] at henc0
    injection henc0
  subst htok
  have hmap : c.productKey.map Json.str = none := by rw [hnopk]; rfl
  have haccept : devicesCallParams P (some tok) d = some (some c.pageNo, some c.pageSize) := by
    rw [devicesCallParams_cursor P tok d c hdec0, hmap]
    rw [if_neg (by rw [show jsTruthy none = false from rfl]; simp)]
  rw [listDevicesPaginated_eq, haccept]

/-- C8 counterexample: a cursor minted by the unscoped products listing
(no `productKey` field) is supplied to the devices listing for product
`P`; it is not rejected — the call redeems it, fetching page 2 of `P` and
returning that page successfully. -/
theorem C8_counterexample :
    encodeCursor ⟨2, 15, none, none⟩ = some "eyJwYWdlTm8iOjIsInBhZ2VTaXplIjoxNX0=" ∧
    listDevicesPaginated
        (⟨true, fun pn ps =>
            if pn = some 2 ∧ ps = some 15 then .response true (some 200) (some [7])
            else .thrown⟩ : UpstreamWorld Nat)
        "P" (some "eyJwYWdlTm8iOjIsInBhZ2VTaXplIjoxNX0=") 15
      = ⟨.ok ([7], none), true, [(some 2, some 15)]⟩ :=
  ⟨rfl, rfl⟩

theorem C8_witness :
    listDevicesPaginated
        (⟨true, fun pn ps =>
            if pn = some 2 ∧ ps = some 15 then .response true (some 200) (some [7])
            else .thrown⟩ : UpstreamWorld Nat)
        "P" (some "eyJwYWdlTm8iOjIsInBhZ2VTaXplIjoxNX0=") 15
      = devicesCore
          (⟨true, fun pn ps =>
              if pn = some 2 ∧ ps = some 15 then .response true (some 200) (some [7])
              else .thrown⟩ : UpstreamWorld Nat)
          "P" (some 2) (some 15) :=
  C8_unscoped_cursor_accepted Nat _ "P" 15 ⟨2, 15, none, none⟩
    "eyJwYWdlTm8iOjIsInBhZ2VTaXplIjoxNX0=" rfl (by decide)

theorem productsMint_spec {α : Type} (w : UpstreamWorld α) (p s : Int) :
    ((∃ tok', (match w.page (some (p + 1)) (some s) with
        | .response true (some 200) (some d) =>
          if 0 < d.length then
            encodeCursorJson
              [("pageNo", jsNumJson (some (p + 1))), ("pageSize", jsNumJson (some s))]
          else none
        | _ => none) = some tok')
      ↔ ∃ dat', w.page (some (p + 1)) (some s) = .response true (some 200) (some dat')
          ∧ 0 < dat'.length) ∧
    (∀ tok', (match w.page (some (p + 1)) (some s) with
        | .response true (some 200) (some d) =>
          if 0 < d.length then
            encodeCursorJson
              [("pageNo", jsNumJson (some (p + 1))), ("pageSize", jsNumJson (some s))]
          else none
        | _ => none) = some tok' →
      decodeCursor tok' = some (Json.obj
        [("pageNo", Json.num (p + 1)), ("pageSize", Json.num s)])) := by
  obtain ⟨tok, henc, hdec⟩ := decode_encodeCursorJson
      [("pageNo", Json.num (p + 1)), ("pageSize", Json.num s)]
      (by intro kv hkv; fin_cases hkv <;> trivial)
      (by
        intro kv hkv
        fin_cases hkv
        · exact ⟨keyLatin1_pageNo, trivial⟩
        · exact ⟨keyLatin1_pageSize, trivial⟩)
  have hform : encodeCursorJson
      [("pageNo", jsNumJson (some (p + 1))), ("pageSize", jsNumJson (some s))]
      = some tok := henc
  rcases hla : w.page (some (p + 1)) (some s) with _ | ⟨ok', code', data'⟩
  · refine ⟨⟨?_, ?_⟩, ?_⟩
    · rintro ⟨tok', htok'⟩
      simp at htok'
    · rintro ⟨dat', hcontra, -⟩
      exact absurd hcontra (by intro h; injection h)
    · intro tok' htok'
      simp at htok'
  · rcases ok' with _ | _
    · refine ⟨⟨?_, ?_⟩, ?_⟩
      · rintro ⟨tok', htok'⟩
        simp at htok'
      · rintro ⟨dat', hcontra, -⟩
        simp at hcontra
      · intro tok' htok'
        simp at htok'
    · rcases code' with _ | n
      · refine ⟨⟨?_, ?_⟩, ?_⟩
        · rintro ⟨tok', htok'⟩
          simp at htok'
        · rintro ⟨dat', hcontra, -⟩
          simp at hcontra
        · intro tok' htok'
          simp at htok'
      · by_cases hn : n = 200
        · subst hn
          rcases data' with _ | dat
          · refine ⟨⟨?_, ?_⟩, ?_⟩
            · rintro ⟨tok', htok'⟩
              simp at htok'
            · rintro ⟨dat', hcontra, -⟩
              simp at hcontra
            · intro tok' htok'
              simp at htok'
          · have hstep :
                (match (FetchOutcome.response true (some 200) (some dat) : FetchOutcome α) with
                  | .response true (some 200) (some d) =>
                    if 0 < d.length then
                      encodeCursorJson
                        [("pageNo", jsNumJson (some (p + 1))),
                         ("pageSize", jsNumJson (some s))]
                    else none
                  | _ => none)
                = if 0 < dat.length then
                    encodeCursorJson
                      [("pageNo", jsNumJson (some (p + 1))),
                       ("pageSize", jsNumJson (some s))]
                  else none := rfl
            by_cases hlen : 0 < dat.length
            · refine ⟨⟨?_, ?_⟩, ?_⟩
              · intro
                exact ⟨dat, rfl, hlen⟩
              · intro
                refine ⟨tok, ?_⟩
                rw [hstep, if_pos hlen]
                exact hform
              · intro tok' htok'
                rw [hstep, if_pos hlen, hform] at htok'
                injection htok' with h
                subst h
                exact hdec
            · refine ⟨⟨?_, ?_⟩, ?_⟩
              · rintro ⟨tok', htok'⟩
                rw [hstep, if_neg hlen] at htok'
                injection htok'
              · rintro ⟨dat', hcontra, hlen'⟩
                simp at hcontra
                subst hcontra
                exact absurd hlen' hlen
              · intro tok' htok'
                rw [hstep, if_neg hlen] at htok'
                injection htok'
        · refine ⟨⟨?_, ?_⟩, ?_⟩
          · rintro ⟨tok', htok'⟩
            rcases data' with _ | dat <;> simp [hn] at htok'
          · rintro ⟨dat', hcontra, -⟩
            simp [hn] at hcontra
          · intro tok' htok'
            rcases data' with _ | dat <;> simp [hn] at htok'

theorem devicesMint_spec {α : Type} (w : UpstreamWorld α) (pk : String) (p s : Int)
    (hlat : ∀ ch ∈ pk.toList, ch.toNat ≤ 255) :
    ((∃ tok', (match w.page (some (p + 1)) (some s) with
        | .response true _ (some d) =>
          if 0 < d.length then
            encodeCursorJson
              [("pageNo", jsNumJson (some (p + 1))), ("pageSize", jsNumJson (some s)),
               ("productKey", Json.str pk)]
          else none
        | _ => none) = some tok')
      ↔ ∃ code' dat', w.page (some (p + 1)) (some s) = .response true code' (some dat')
          ∧ 0 < dat'.length) ∧
    (∀ tok', (match w.page (some (p + 1)) (some s) with
        | .response true _ (some d) =>
          if 0 < d.length then
            encodeCursorJson
              [("pageNo", jsNumJson (some (p + 1))), ("pageSize", jsNumJson (some s)),
               ("productKey", Json.str pk)]
          else none
        | _ => none) = some tok' →
      decodeCursor tok' = some (Json.obj
        [("pageNo", Json.num (p + 1)), ("pageSize", Json.num s),
         ("productKey", Json.str pk)])) := by
  obtain ⟨tok, henc, hdec⟩ := decode_encodeCursorJson
      [("pageNo", Json.num (p + 1)), ("pageSize", Json.num s), ("productKey", Json.str pk)]
      (by intro kv hkv; fin_cases hkv <;> trivial)
      (by
        intro kv hkv
        fin_cases hkv
        · exact ⟨keyLatin1_pageNo, trivial⟩
        · exact ⟨keyLatin1_pageSize, trivial⟩
        · exact ⟨keyLatin1_productKey, hlat⟩)
  have hform : encodeCursorJson
      [("pageNo", jsNumJson (some (p + 1))), ("pageSize", jsNumJson (some s)),
       ("productKey", Json.str pk)]
      = some tok := henc
  rcases hla : w.page (some (p + 1)) (some s) with _ | ⟨ok', code', data'⟩
  · refine ⟨⟨?_, ?_⟩, ?_⟩
    · rintro ⟨tok', htok'⟩
      simp at htok'
    · rintro ⟨code', dat', hcontra, -⟩
      exact absurd hcontra (by intro h; injection h)
    · intro tok' htok'
      simp at htok'
  · rcases ok' with _ | _
    · refine ⟨⟨?_, ?_⟩, ?_⟩
      · rintro ⟨tok', htok'⟩
        simp at htok'
      · rintro ⟨code'', dat', hcontra, -⟩
        simp at hcontra
      · intro tok' htok'
        simp at htok'
    · rcases data' with _ | dat
      · refine ⟨⟨?_, ?_⟩, ?_⟩
        · rintro ⟨tok', htok'⟩
          simp at htok'
        · rintro ⟨code'', dat', hcontra, -⟩
          simp at hcontra
        · intro tok' htok'
          simp at htok'
      · have hstep :
            (match (FetchOutcome.response true code' (some dat) : FetchOutcome α) with
              | .response true _ (some d) =>
                if 0 < d.length then
                  encodeCursorJson
                    [("pageNo", jsNumJson (some (p + 1))),
                     ("pageSize", jsNumJson (some s)),
                     ("productKey", Json.str pk)]
                else none
              | _ => none)
            = if 0 < dat.length then
                encodeCursorJson
                  [("pageNo", jsNumJson (some (p + 1))),
                   ("pageSize", jsNumJson (some s)),
                   ("productKey", Json.str pk)]
              else none := rfl
        by_cases hlen : 0 < dat.length
        · refine ⟨⟨?_, ?_⟩, ?_⟩
          · intro
            exact ⟨code', dat, rfl, hlen⟩
          · intro
            refine ⟨tok, ?_⟩
            rw [hstep, if_pos hlen]
            exact hform
          · intro tok' htok'
            rw [hstep, if_pos hlen, hform] at htok'
            injection htok' with h
            subst h
            exact hdec
        · refine ⟨⟨?_, ?_⟩, ?_⟩
          · rintro ⟨tok', htok'⟩
            rw [hstep, if_neg hlen] at htok'
            injection htok'
          · rintro ⟨code'', dat', hcontra, hlen'⟩
            simp at hcontra
            obtain ⟨-, h2⟩ := hcontra
            subst h2
            exact absurd hlen' hlen
          · intro tok' htok'
            rw [hstep, if_neg hlen] at htok'
            injection htok'

/-- C1 (amended): for a listing call whose primary fetch succeeds with
page `p` and size `s`: on a full page a lookahead of `p + 1` with the same
`s` is fetched, the primary items are returned unmerged, and a successor
cursor — decoding to `pageNo = p + 1`, the same `pageSize` (and, for
devices, the same `productKey`) — is returned exactly when the lookahead
succeeds with at least one item; on a short page no lookahead happens and
no cursor is returned.  For the devices listing this holds for
Latin-1-encodable product keys; for others the cursor minting itself
throws and is swallowed (see the counterexample). -/
theorem C1_full_page_lookahead (α : Type) (w : UpstreamWorld α) (cursor : Option String)
    (d p s : Int) (data : Option (List α)) (htok : w.tokenOk = true) :
    (productsCallParams cursor d = some (some p, some s) →
      w.page (some p) (some s) = .response true (some 200) data →
      ((((data.getD []).length : Int) = s →
        (listProductsPaginated w cursor d).fetches
            = [(some p, some s), (some (p + 1), some s)] ∧
        ∃ nc, (listProductsPaginated w cursor d).result = .ok (data.getD [], nc) ∧
          ((∃ tok', nc = some tok') ↔
            ∃ dat', w.page (some (p + 1)) (some s) = .response true (some 200) (some dat')
              ∧ 0 < dat'.length) ∧
          (∀ tok', nc = some tok' →
            decodeCursor tok' = some (Json.obj
              [("pageNo", Json.num (p + 1)), ("pageSize", Json.num s)]))) ∧
      (((data.getD []).length : Int) ≠ s →
        listProductsPaginated w cursor d
          = ⟨.ok (data.getD [], none), true, [(some p, some s)]⟩))) ∧
    (∀ productKey code, (∀ ch ∈ productKey.toList, ch.toNat ≤ 255) →
      devicesCallParams productKey cursor d = some (some p, some s) →
      w.page (some p) (some s) = .response true code data →
      ((((data.getD []).length : Int) = s →
        (listDevicesPaginated w productKey cursor d).fetches
            = [(some p, some s), (some (p + 1), some s)] ∧
        ∃ nc, (listDevicesPaginated w productKey cursor d).result
            = .ok (data.getD [], nc) ∧
          ((∃ tok', nc = some tok') ↔
            ∃ code' dat', w.page (some (p + 1)) (some s)
                = .response true code' (some dat') ∧ 0 < dat'.length) ∧
          (∀ tok', nc = some tok' →
            decodeCursor tok' = some (Json.obj
              [("pageNo", Json.num (p + 1)), ("pageSize", Json.num s),
               ("productKey", Json.str productKey)]))) ∧
      (((data.getD []).length : Int) ≠ s →
        listDevicesPaginated w productKey cursor d
          = ⟨.ok (data.getD [], none), true, [(some p, some s)]⟩))) := by
  constructor
  · intro hparam hpage
    constructor
    · intro hfull
      rw [listProductsPaginated_eq, hparam]
      dsimp only []
      rw [productsCore_full w p s data htok hpage hfull]
      refine ⟨rfl, _, rfl, ?_, ?_⟩
      · exact (productsMint_spec w p s).1
      · exact (productsMint_spec w p s).2
    · intro hshort
      rw [listProductsPaginated_eq, hparam]
      dsimp only []
      rw [productsCore_short w p s data htok hpage hshort]
  · intro pk code hlat hparam hpage
    constructor
    · intro hfull
      rw [listDevicesPaginated_eq, hparam]
      dsimp only []
      rw [devicesCore_full w pk p s code data htok hpage hfull]
      refine ⟨rfl, _, rfl, ?_, ?_⟩
      · exact (devicesMint_spec w pk p s hlat).1
      · exact (devicesMint_spec w pk p s hlat).2
    · intro hshort
      rw [listDevicesPaginated_eq, hparam]
      dsimp only []
      rw [devicesCore_short w pk p s code data htok hpage hshort]

/-- C1 counterexample: the devices listing for the non-Latin-1 product key
`"π"` sees a full primary page and a successful nonempty lookahead, yet
returns no successor cursor — `encodeCursor` throws inside the lookahead
`try` (`btoa` rejects non-Latin-1 input) and the error is swallowed,
contradicting the claimed "successor cursor iff lookahead succeeds with at
least one item". -/
theorem C1_counterexample :
    (listDevicesPaginated
        (⟨true, fun pn _ =>
            if pn = some 1 then .response true (some 200) (some [0])
            else .response true (some 200) (some [1])⟩ : UpstreamWorld Nat)
        "π" none 1)
      = ⟨.ok ([0], none), true, [(some 1, some 1), (some 2, some 1)]⟩ := rfl

theorem C1_witness :
    (listProductsPaginated
        (⟨true, fun pn _ =>
            if pn = some 1 then .response true (some 200) (some [0])
            else .response true (some 200) (some [1])⟩ : UpstreamWorld Nat)
        none 1).fetches = [(some 1, some 1), (some 2, some 1)] ∧
    ∃ nc, (listProductsPaginated
        (⟨true, fun pn _ =>
            if pn = some 1 then .response true (some 200) (some [0])
            else .response true (some 200) (some [1])⟩ : UpstreamWorld Nat)
        none 1).result = .ok ([0], nc) ∧ ∃ tok', nc = some tok' := by
  have h := ((C1_full_page_lookahead Nat
    ⟨true, fun pn _ =>
      if pn = some 1 then .response true (some 200) (some [0])
      else .response true (some 200) (some [1])⟩
    none 1 1 1 (some [0]) rfl).1 rfl rfl).1 (by decide)
  obtain ⟨hf, nc, hres, hiff, -⟩ := h
  exact ⟨hf, nc, hres, hiff.mpr ⟨[1], rfl, by decide⟩⟩

/-- C3 (amended): `decodeCursor` fails (with its single
`Invalid cursor format` error) exactly when the base64 stage or the JSON
stage fails; whenever both succeed, the parsed value is returned as-is —
no check that `pageNo`/`pageSize` exist or are positive integers is
performed, so partially-populated cursor values are returned. -/
theorem C3_decode_no_validation (s : String) :
    (decodeCursor s = none ↔
      atob s = none ∨ ∃ t, atob s = some t ∧ jsonParse t = none) ∧
    (∀ j, decodeCursor s = some j ↔ ∃ t, atob s = some t ∧ jsonParse t = some j) := by
  unfold decodeCursor
  rcases hA : atob s with _ | t
  · constructor
    · simp
    · intro j
      simp
  · rcases hJ : jsonParse t with _ | j'
    · constructor
      · simp [hJ]
      · intro j
        simp [hJ]
    · constructor
      · simp [hJ]
      · intro j
        simp [hJ]

theorem C3_witness :
    decodeCursor "###" = none ∧ decodeCursor "bnVsbA==" = some Json.null := by
  have h1 := (C3_decode_no_validation "###").1
  have h2 := (C3_decode_no_validation "bnVsbA==").2 Json.null
  exact ⟨h1.mpr (Or.inl rfl), h2.mpr ⟨"null", rfl, rfl⟩⟩

/-- C3 counterexample: the base64 of `{}` decodes successfully to an empty
object even though both required fields are missing — `decodeCursor`
returns the partially-populated value instead of failing with
`InvalidCursor`. -/
theorem C3_counterexample :
    decodeCursor "e30=" = some (Json.obj []) ∧
    jsField (Json.obj []) "pageNo" = none ∧
    jsField (Json.obj []) "pageSize" = none :=
  ⟨rfl, rfl, rfl⟩

/-- C4 (amended): `encodeCursor` is deterministic, and for every valid
cursor whose `productKey` (when present) contains only Latin-1 code
points, `decodeCursor ∘ encodeCursor` recovers exactly the cursor's JSON
object (and `cursorToJson` is injective, so the decoded value determines
the cursor).  For a cursor whose `productKey` contains a code point above
U+00FF, `encodeCursor` itself throws (`btoa` rejects non-Latin-1 input),
so no round-trip exists — see the counterexample. -/
theorem C4_roundtrip_latin1 (c : PaginationCursor)
    (_hpos : 1 ≤ c.pageNo ∧ 1 ≤ c.pageSize)
    (hpk : ∀ pk, c.productKey = some pk → ∀ ch ∈ pk.toList, ch.toNat ≤ 255) :
    (∃ tok, encodeCursor c = some tok ∧ decodeCursor tok = some (cursorToJson c)) ∧
    encodeCursor c = encodeCursor c ∧
    (∀ c', cursorToJson c' = cursorToJson c → c' = c) :=
  ⟨encodeCursor_roundtrip c hpk, rfl, fun c' h => cursorToJson_inj c' c h⟩

theorem C4_witness :
    ∃ tok, encodeCursor ⟨2, 15, some "A", none⟩ = some tok ∧
      decodeCursor tok = some (cursorToJson ⟨2, 15, some "A", none⟩) :=
  (C4_roundtrip_latin1 ⟨2, 15, some "A", none⟩ (by decide) (by decide)).1

/-- C4 counterexample: a valid cursor value whose `productKey` is the
non-Latin-1 string `"π"` cannot be encoded at all — `encodeCursor` throws
(`btoa` rejects code points above 255), so `decode(encode(c)) = c` fails
for this valid cursor. -/
theorem C4_counterexample :
    encodeCursor ⟨1, 15, some "π", none⟩ = none := rfl

/-- C9: `getAccessToken` returns a truthy cached token without touching
the network while `now < tokenExpiry`; otherwise it contacts the network
before returning, and on success stores the new token with expiry one
hour from now, so that any later call within that window returns it from
the cache with no network activity. -/
theorem C9_token_cache (st : TokenState) (now : Int) (net : TokenNet) :
    (∀ t, st.accessToken = some t → t ≠ "" → now < st.tokenExpiry →
      getAccessToken st now net = (.ok t, st, false)) ∧
    (¬ (tokenTruthy st.accessToken = true ∧ now < st.tokenExpiry) →
      (getAccessToken st now net).2.2 = true) ∧
    (∀ t, ¬ (tokenTruthy st.accessToken = true ∧ now < st.tokenExpiry) →
      net = .success (some t) → t ≠ "" →
      getAccessToken st now net = (.ok t, ⟨some t, now + 3600000⟩, true) ∧
      ∀ now' net', now' < now + 3600000 →
        getAccessToken ⟨some t, now + 3600000⟩ now' net'
          = (.ok t, ⟨some t, now + 3600000⟩, false)) := by
  refine ⟨?_, ?_, ?_⟩
  · intro t ht hne hlt
    unfold getAccessToken
    rw [if_pos ?_]
    · rw [ht]
      rfl
    · refine ⟨?_, hlt⟩
      rw [ht]
      exact decide_eq_true hne
  · intro hmiss
    unfold getAccessToken
    rw [if_neg hmiss]
    rcases net with _ | tok
    · rfl
    · dsimp only []
      split <;> rfl
  · intro t hmiss hnet hne
    subst hnet
    constructor
    · unfold getAccessToken
      rw [if_neg hmiss]
      dsimp only []
      rw [if_pos (by exact decide_eq_true hne)]
      rfl
    · intro now' net' hlt'
      unfold getAccessToken
      rw [if_pos ⟨decide_eq_true hne, hlt'⟩]
      rfl

theorem C9_witness :
    getAccessToken ⟨some "tok1", 1000⟩ 500 .thrown = (.ok "tok1", ⟨some "tok1", 1000⟩, false) ∧
    getAccessToken ⟨none, 0⟩ 500 (.success (some "tok2"))
      = (.ok "tok2", ⟨some "tok2", 500 + 3600000⟩, true) ∧
    getAccessToken ⟨some "tok2", 500 + 3600000⟩ 600 .thrown
      = (.ok "tok2", ⟨some "tok2", 500 + 3600000⟩, false) := by
  have h1 := (C9_token_cache ⟨some "tok1", 1000⟩ 500 .thrown).1 "tok1" rfl (by decide)
    (by decide)
  have h3 := (C9_token_cache ⟨none, 0⟩ 500 (.success (some "tok2"))).2.2 "tok2"
    (by simp [tokenTruthy]) rfl (by decide)
  exact ⟨h1, h3.1, h3.2 600 .thrown (by decide)⟩

theorem productsLoop_bound {α : Type} (w : UpstreamWorld α) (pageSize : Int) (sz : Nat) :
    ∀ (fuel pageNo : Nat) (acc : List α),
      (productsLoop w pageSize fuel pageNo acc).2.length ≤ fuel + 1 ∧
      (∀ q ∈ (productsLoop w pageSize fuel pageNo acc).2, pageNo ≤ q ∧ q ≤ pageNo + fuel) ∧
      ((∀ pn ps ok' c d, w.page pn ps = .response ok' c (some d) → d.length ≤ sz) →
        ∀ r, (productsLoop w pageSize fuel pageNo acc).1 = .ok r →
          r.length ≤ acc.length + (fuel + 1) * sz) := by
  intro fuel
  induction fuel using Nat.strong_induction_on with
  | _ fuel ih =>
  intro pageNo acc
  have hsz1 : sz ≤ (fuel + 1) * sz := Nat.le_mul_of_pos_left sz (by omega)
  unfold productsLoop
  by_cases htok : w.tokenOk = false
  · rw [if_pos htok]
    refine ⟨by simp, by simp, ?_⟩
    intro _hb r hr
    dsimp only [] at hr
    split at hr
    · simp at hr
    · injection hr with h
      subst h
      exact Nat.le_add_right _ _
  · rw [if_neg htok]
    rcases hpage : w.page (some pageNo) (some pageSize) with _ | ⟨ok, code, data⟩
    · refine ⟨by simp, ?_, ?_⟩
      · intro q hq
        simp at hq
        subst hq
        omega
      · intro _hb r hr
        dsimp only [] at hr
        split at hr
        · simp at hr
        · injection hr with h
          subst h
          exact Nat.le_add_right _ _
    · dsimp only []
      by_cases hok : ok = false
      · rw [if_pos hok]
        refine ⟨by simp, ?_, ?_⟩
        · intro q hq
          simp at hq
          subst hq
          omega
        · intro _hb r hr
          dsimp only [] at hr
          split at hr
          · simp at hr
          · injection hr with h
            subst h
            exact Nat.le_add_right _ _
      · rw [if_neg hok]
        by_cases hcode : code ≠ some 200
        · rw [if_pos hcode]
          refine ⟨by simp, ?_, ?_⟩
          · intro q hq
            simp at hq
            subst hq
            omega
          · intro _hb r hr
            dsimp only [] at hr
            split at hr
            · simp at hr
            · injection hr with h
              subst h
              exact Nat.le_add_right _ _
        · rw [if_neg hcode]
          rcases data with _ | d
          · refine ⟨by simp, ?_, ?_⟩
            · intro q hq
              simp at hq
              subst hq
              omega
            · intro _hb r hr
              dsimp only [] at hr
              injection hr with h
              subst h
              exact Nat.le_add_right _ _
          · dsimp only []
            by_cases hlen0 : d.length = 0
            · rw [if_pos hlen0]
              refine ⟨by simp, ?_, ?_⟩
              · intro q hq
                simp at hq
                subst hq
                omega
              · intro _hb r hr
                dsimp only [] at hr
                injection hr with h
                subst h
                exact Nat.le_add_right _ _
            · rw [if_neg hlen0]
              by_cases hshort : (d.length : Int) < pageSize
              · rw [if_pos hshort]
                refine ⟨by simp, ?_, ?_⟩
                · intro q hq
                  simp at hq
                  subst hq
                  omega
                · intro hb r hr
                  have hd : d.length ≤ sz := hb _ _ _ _ _ hpage
                  dsimp only [] at hr
                  injection hr with h
                  subst h
                  simp only [List.length_append]
                  omega
              · rw [if_neg hshort]
                rcases fuel with _ | fuel'
                · refine ⟨by simp, ?_, ?_⟩
                  · intro q hq
                    simp at hq
                    subst hq
                    omega
                  · intro hb r hr
                    have hd : d.length ≤ sz := hb _ _ _ _ _ hpage
                    dsimp only [] at hr
                    injection hr with h
                    subst h
                    simp only [List.length_append]
                    omega
                · obtain ⟨ih1, ih2, ih3⟩ := ih fuel' (by omega) (pageNo + 1) (acc ++ d)
                  dsimp only []
                  refine ⟨?_, ?_, ?_⟩
                  · simp only [List.length_cons]
                    omega
                  · intro q hq
                    simp only [List.mem_cons] at hq
                    rcases hq with hq | hq
                    · subst hq
                      omega
                    · have := ih2 q hq
                      omega
                  · intro hb r hr
                    have hd : d.length ≤ sz := hb _ _ _ _ _ hpage
                    have := ih3 hb r hr
                    simp only [List.length_append] at this
                    have hm : (fuel' + 1 + 1) * sz = (fuel' + 1) * sz + sz := by ring
                    omega

theorem devicesLoop_bound {α : Type} (w : UpstreamWorld α) (pageSize : Int) (sz : Nat) :
    ∀ (fuel pageNo : Nat) (acc : List α),
      (devicesLoop w pageSize fuel pageNo acc).2.length ≤ fuel + 1 ∧
      (∀ q ∈ (devicesLoop w pageSize fuel pageNo acc).2, pageNo ≤ q ∧ q ≤ pageNo + fuel) ∧
      ((∀ pn ps ok' c d, w.page pn ps = .response ok' c (some d) → d.length ≤ sz) →
        ∀ r, (devicesLoop w pageSize fuel pageNo acc).1 = .ok r →
          r.length ≤ acc.length + (fuel + 1) * sz) := by
  intro fuel
  induction fuel using Nat.strong_induction_on with
  | _ fuel ih =>
  intro pageNo acc
  have hsz1 : sz ≤ (fuel + 1) * sz := Nat.le_mul_of_pos_left sz (by omega)
  unfold devicesLoop
  by_cases htok : w.tokenOk = false
  · rw [if_pos htok]
    refine ⟨by simp, by simp, ?_⟩
    intro _hb r hr
    dsimp only [] at hr
    split at hr
    · simp at hr
    · injection hr with h
      subst h
      exact Nat.le_add_right _ _
  · rw [if_neg htok]
    rcases hpage : w.page (some pageNo) (some pageSize) with _ | ⟨ok, code, data⟩
    · refine ⟨by simp, ?_, ?_⟩
      · intro q hq
        simp at hq
        subst hq
        omega
      · intro _hb r hr
        dsimp only [] at hr
        split at hr
        · simp at hr
        · injection hr with h
          subst h
          exact Nat.le_add_right _ _
    · dsimp only []
      by_cases hok : ok = false
      · rw [if_pos hok]
        refine ⟨by simp, ?_, ?_⟩
        · intro q hq
          simp at hq
          subst hq
          omega
        · intro _hb r hr
          dsimp only [] at hr
          split at hr
          · simp at hr
          · injection hr with h
            subst h
            exact Nat.le_add_right _ _
      · rw [if_neg hok]
        rcases data with _ | d
        · refine ⟨by simp, ?_, ?_⟩
          · intro q hq
            simp at hq
            subst hq
            omega
          · intro _hb r hr
            dsimp only [] at hr
            injection hr with h
            subst h
            exact Nat.le_add_right _ _
        · dsimp only []
          by_cases hlen0 : d.length = 0
          · rw [if_pos hlen0]
            refine ⟨by simp, ?_, ?_⟩
            · intro q hq
              simp at hq
              subst hq
              omega
            · intro _hb r hr
              dsimp only [] at hr
              injection hr with h
              subst h
              exact Nat.le_add_right _ _
          · rw [if_neg hlen0]
            by_cases hshort : (d.length : Int) < pageSize
            · rw [if_pos hshort]
              refine ⟨by simp, ?_, ?_⟩
              · intro q hq
                simp at hq
                subst hq
                omega
              · intro hb r hr
                have hd : d.length ≤ sz := hb _ _ _ _ _ hpage
                dsimp only [] at hr
                injection hr with h
                subst h
                simp only [List.length_append]
                omega
            · rw [if_neg hshort]
              rcases fuel with _ | fuel'
              · refine ⟨by simp, ?_, ?_⟩
                · intro q hq
                  simp at hq
                  subst hq
                  omega
                · intro hb r hr
                  have hd : d.length ≤ sz := hb _ _ _ _ _ hpage
                  dsimp only [] at hr
                  injection hr with h
                  subst h
                  simp only [List.length_append]
                  omega
              · obtain ⟨ih1, ih2, ih3⟩ := ih fuel' (by omega) (pageNo + 1) (acc ++ d)
                dsimp only []
                refine ⟨?_, ?_, ?_⟩
                · simp only [List.length_cons]
                  omega
                · intro q hq
                  simp only [List.mem_cons] at hq
                  rcases hq with hq | hq
                  · subst hq
                    omega
                  · have := ih2 q hq
                    omega
                · intro hb r hr
                  have hd : d.length ≤ sz := hb _ _ _ _ _ hpage
                  have := ih3 hb r hr
                  simp only [List.length_append] at this
                  have hm : (fuel' + 1 + 1) * sz = (fuel' + 1) * sz + sz := by ring
                  omega

/-- C10 (amended): for every upstream whatsoever, both aggregation loops
start at page 1, increment by one, and stop once the incremented page
number exceeds 100, so at most 100 pages are fetched and every fetched
page number lies in `[1, 100]` — unconditionally.  The item bound is
conditional: when every upstream page body contains at most `sz` items
(the honored page size), the returned array has at most `100 * sz` items;
an upstream that returns more than `pageSize` items per page can exceed
`100 * pageSize` items — see the counterexample. -/
theorem C10_loop_bounds (α : Type) (w : UpstreamWorld α) (pageSize : Int) (sz : Nat) :
    ((listProducts w pageSize).2.length ≤ 100 ∧
      (∀ q ∈ (listProducts w pageSize).2, 1 ≤ q ∧ q ≤ 100) ∧
      ((∀ pn ps ok' c d, w.page pn ps = .response ok' c (some d) → d.length ≤ sz) →
        ∀ r, (listProducts w pageSize).1 = .ok r → r.length ≤ 100 * sz)) ∧
    ((listDevices w pageSize).2.length ≤ 100 ∧
      (∀ q ∈ (listDevices w pageSize).2, 1 ≤ q ∧ q ≤ 100) ∧
      ((∀ pn ps ok' c d, w.page pn ps = .response ok' c (some d) → d.length ≤ sz) →
        ∀ r, (listDevices w pageSize).1 = .ok r → r.length ≤ 100 * sz)) := by
  obtain ⟨h1, h2, h3⟩ := productsLoop_bound w pageSize sz 99 1 []
  obtain ⟨g1, g2, g3⟩ := devicesLoop_bound w pageSize sz 99 1 []
  refine ⟨⟨h1, ?_, ?_⟩, ⟨g1, ?_, ?_⟩⟩
  · intro q hq
    have := h2 q hq
    omega
  · intro hb r hr
    have := h3 hb r hr
    simp only [List.length_nil] at this
    omega
  · intro q hq
    have := g2 q hq
    omega
  · intro hb r hr
    have := g3 hb r hr
    simp only [List.length_nil] at this
    omega

/-- C10 counterexample: with `pageSize = 1` but an upstream that returns
two items per page, the loop still runs its 100 pages and the returned
array has 200 items — more than `100 * pageSize = 100`, contradicting the
claim's unconditional `100 × pageSize` bound. -/
theorem C10_counterexample :
    ((listProducts
        (⟨true, fun _ _ => .response true (some 200) (some [0, 1])⟩ : UpstreamWorld Nat)
        1).1).map List.length = .ok 200 ∧
    ¬ (200 ≤ 100 * 1) :=
  ⟨rfl, by decide⟩

theorem C10_witness :
    ((listProducts
        (⟨true, fun _ _ => .response true (some 200) (some [0])⟩ : UpstreamWorld Nat)
        1).2.length ≤ 100) ∧
    (∀ r, (listProducts
        (⟨true, fun _ _ => .response true (some 200) (some [0])⟩ : UpstreamWorld Nat)
        1).1 = .ok r → r.length ≤ 100 * 1) := by
  have h := (C10_loop_bounds Nat
    ⟨true, fun _ _ => .response true (some 200) (some [0])⟩ 1 1).1
  refine ⟨h.1, h.2.2 ?_⟩
  intro pn ps ok' c d hd
  injection hd with h1 h2 h3
  injection h3 with h4
  rw [← h4]
  decide
